import Mathlib

/-!
# TennisTournament: verified model of the tournament state machine

This file gives a shallow embedding, in Lean, of the data model and the
state-transition functions of the TennisTournament web application
(`types.ts`, `constants.ts`, the two application-root components and the
Gemini service modules of the source tree), together with theorems about
the embedded functions.

Modelling conventions:
* JavaScript numbers are modelled exactly: integer-valued quantities
  (scores, round numbers) as `Int`/`Nat`, win/loss/draw counters as `Int`
  (the source decrements them, so they can go negative), and ratings as
  `ℚ`.  The Elo expected-score formula `1 / (1 + 10 ** ((Rb - Ra) / 400))`
  takes irrational values, so the state-level operations are parameterised
  by an arbitrary expected-score function `E : ℚ → ℚ → ℚ` (`E own opp`);
  the exact real-valued formula is modelled separately over `ℝ` where a
  claim is about the formula itself.
* External nondeterminism (the Gemini API results, `Math.random`-based
  shuffles, uuid generation) is passed in as explicit parameters.
* Thrown JavaScript exceptions are modelled with `Except`.
* JavaScript `Map`s and plain-object records are modelled as association
  lists; object mutation through aliased references is modelled by
  updating list entries keyed by player id.
-/

namespace Tennis

/-- `types.ts`, enum `MatchFormat`. -/
inductive MatchFormat where
  | knockout
  | roundRobin
  | hybrid
  deriving DecidableEq

/-- `types.ts`, interface `Player` (the claim-relevant fields; the optional
`imageUrl`/`qrData` decoration fields are not modelled). -/
structure Player where
  id : String
  name : String
  mobileNumber : String
  rating : ℚ
  wins : Int
  losses : Int
  draws : Int
  category : String
  deriving DecidableEq

/-- `types.ts`, interface `Match`. -/
structure Match where
  id : String
  player1Id : String
  player2Id : String
  score1 : Option Int
  score2 : Option Int
  winnerId : Option String
  round : Nat
  isComplete : Bool
  category : Option String
  group : Option String
  deriving DecidableEq

/-- `types.ts`, interface `CsvMatch`, also the shape of the rows of the
generated/published fixture caches. -/
structure CsvMatch where
  player1 : String
  player2 : String
  round : Nat
  category : Option String
  group : Option String
  deriving DecidableEq

/-- `types.ts`, interface `CsvPlayer`: one parsed CSV roster row.  A missing
or empty (falsy) cell is `none`; `rating` holds the `parseInt` result of a
non-empty rating cell. -/
structure CsvPlayerRow where
  name : Option String
  mobilenumber : Option String
  rating : Option ℚ
  category : Option String
  deriving DecidableEq

/-- `types.ts`, interface `TournamentSettings` (claim-relevant fields). -/
structure TournamentSettings where
  tournamentName : String
  numRounds : Nat
  selectedPlayerIds : List String
  matchFormat : MatchFormat
  customFixtureUploaded : Bool
  deriving DecidableEq

/-- `types.ts`, interface `TournamentState` (claim-relevant fields; the
UI-loading flags, mode and login fields are not modelled).  JavaScript
object records (`roundSummaries`, the fixture caches) are modelled as
association lists in key-insertion order; `roundSummaries` round keys are
strings because JavaScript object keys are strings at runtime. -/
structure TournamentState where
  players : List Player
  «matches» : List Match
  currentRound : Nat
  tournamentSettings : Option TournamentSettings
  roundSummaries : List (String × String)
  generatedFixtures : List (String × List CsvMatch)
  publishedFixtures : List (String × List CsvMatch)
  generatedHybridGroups : List (String × List (List Player))
  deriving DecidableEq

/-- `constants.ts`: `PLAYER_CATEGORIES`. -/
def PLAYER_CATEGORIES : List String := ["30+", "40+", "50+", "60+", "70+"]

/-- `constants.ts`: `DEFAULT_PLAYER_CATEGORY`. -/
def DEFAULT_PLAYER_CATEGORY : String := "30+"

/-- The `initialState` record of the first application root (claim-relevant
fields). -/
def initialState : TournamentState :=
  { players := [],
    «matches» := [],
    currentRound := 0,
    tournamentSettings := none,
    roundSummaries := [],
    generatedFixtures := [],
    publishedFixtures := [],
    generatedHybridGroups := [] }

/-- JavaScript `record[key] = value` on a plain object: overwrite the entry
if the key is present, otherwise append it. -/
def recordSet {α : Type} (kvs : List (String × α)) (k : String) (v : α) :
    List (String × α) :=
  if kvs.any (fun kv => kv.1 = k) then
    kvs.map (fun kv => if kv.1 = k then (k, v) else kv)
  else kvs ++ [(k, v)]

/-- JavaScript `new Set(list)` materialised with `Array.from`: first
occurrences in insertion order. -/
def jsSetList {α : Type} [DecidableEq α] (l : List α) : List α :=
  l.foldl (fun acc a => if a ∈ acc then acc else acc ++ [a]) []

/-! ## Player registration (`handleAddPlayer`, `addPlayer`,
`bulkUploadPlayers`) -/

/-- First application root, `handleAddPlayer`: a freshly registered player
gets rating 1500 and zero counters.  `id` stands for the
`generateUniqueId()` result. -/
def handleAddPlayer (id name mobileNumber category : String)
    (st : TournamentState) : TournamentState :=
  { st with players := st.players ++
      [{ id := id, name := name, mobileNumber := mobileNumber,
         rating := 1500, wins := 0, losses := 0, draws := 0,
         category := category }] }

/-- Second application root, `addPlayer` (uuid variant): identical player
construction; the derived `qrData` string is not modelled.  `id` stands for
the `uuidv4()` result. -/
def addPlayer (id name mobileNumber category : String)
    (st : TournamentState) : TournamentState :=
  { st with players := st.players ++
      [{ id := id, name := name, mobileNumber := mobileNumber,
         rating := 1500, wins := 0, losses := 0, draws := 0,
         category := category }] }

/-- JavaScript `parseInt(s, 10)` restricted to a leading run of decimal
digits; `none` models the `NaN` result. -/
def leadingNat (s : String) : Option Nat :=
  let ds := s.data.takeWhile Char.isDigit
  if ds = [] then none
  else some (ds.foldl (fun n c => n * 10 + (c.toNat - 48)) 0)

/-- Second application root, `bulkUploadPlayers`: category resolution for a
CSV row — case-insensitive exact match against `PLAYER_CATEGORIES`, then a
numeric-prefix match (`"30"` matches `"30+"`), defaulting to
`DEFAULT_PLAYER_CATEGORY`. -/
def resolveCategory (category : Option String) : String :=
  let c := (category.getD "").toLower
  match PLAYER_CATEGORIES.find? (fun cat => cat.toLower = c) with
  | some cat => cat
  | none =>
    match category with
    | some s =>
      match leadingNat s with
      | some n =>
        match PLAYER_CATEGORIES.find? (fun cat => cat = Nat.repr n ++ "+") with
        | some cat => cat
        | none => DEFAULT_PLAYER_CATEGORY
      | none => DEFAULT_PLAYER_CATEGORY
    | none => DEFAULT_PLAYER_CATEGORY

/-- Second application root, `bulkUploadPlayers`: build the player for one
CSV row, skipping rows with a missing name or mobile number.  `ids i`
stands for the `uuidv4()` call of row `i`. -/
def csvRowPlayer (ids : Nat → String) (i : Nat) (row : CsvPlayerRow) :
    Option Player :=
  match row.name, row.mobilenumber with
  | some n, some mob =>
    some { id := ids i, name := n, mobileNumber := mob,
           rating := row.rating.getD 1500,
           wins := 0, losses := 0, draws := 0,
           category := resolveCategory row.category }
  | _, _ => none

/-- Second application root, `bulkUploadPlayers`: construct players from all
rows, then drop the ones whose (mobile number, category) pair already
exists in the registry, and append the rest. -/
def bulkUploadPlayers (ids : Nat → String) (rows : List CsvPlayerRow)
    (st : TournamentState) : TournamentState :=
  let newPlayers := rows.enum.filterMap (fun ni => csvRowPlayer ids ni.1 ni.2)
  let existing := st.players.map (fun p => (p.mobileNumber, p.category))
  let playersToAdd :=
    newPlayers.filter (fun p => (p.mobileNumber, p.category) ∉ existing)
  { st with players := st.players ++ playersToAdd }

/-! ## Player deletion (`handleDeletePlayer`, `deletePlayer`) -/

/-- First application root, `handleDeletePlayer`: fixture-row filter.  A row
is kept when, for each of its two names, the first registered player with
that name (if any) is not the deleted player. -/
def keepRowV1 (players : List Player) (pid : String) (row : CsvMatch) : Bool :=
  ((players.find? (fun p => p.name = row.player1)).map (fun p => p.id)
      ≠ some pid) ∧
  ((players.find? (fun p => p.name = row.player2)).map (fun p => p.id)
      ≠ some pid)

/-- First application root, `handleDeletePlayer`: removes the player, every
match referencing it, and filters both the generated and the published
fixture caches through `keepRowV1`. -/
def handleDeletePlayer (pid : String) (st : TournamentState) :
    TournamentState :=
  { st with
    generatedFixtures :=
      st.generatedFixtures.map (fun kv => (kv.1, kv.2.filter (keepRowV1 st.players pid))),
    publishedFixtures :=
      st.publishedFixtures.map (fun kv => (kv.1, kv.2.filter (keepRowV1 st.players pid))),
    «matches» :=
      st.«matches».filter (fun m => m.player1Id ≠ pid ∧ m.player2Id ≠ pid),
    players := st.players.filter (fun p => p.id ≠ pid) }

/-- Second application root, `deletePlayer` (uuid variant): removes the
player, its matches, the generated-fixture rows naming it (dropping keys
whose filtered list becomes empty) and drops it from the hybrid groups.
The published-fixture cache is not touched by this variant. -/
def deletePlayer (pid : String) (st : TournamentState) : TournamentState :=
  let deletedName := (st.players.find? (fun p => p.id = pid)).map (fun p => p.name)
  { st with
    players := st.players.filter (fun p => p.id ≠ pid),
    «matches» :=
      st.«matches».filter (fun m => m.player1Id ≠ pid ∧ m.player2Id ≠ pid),
    generatedFixtures :=
      st.generatedFixtures.filterMap (fun kv =>
        let filtered := kv.2.filter (fun m =>
          deletedName ≠ some m.player1 ∧ deletedName ≠ some m.player2)
        if 0 < filtered.length then some (kv.1, filtered) else none),
    generatedHybridGroups :=
      st.generatedHybridGroups.filterMap (fun kv =>
        let filteredGroups :=
          (kv.2.map (fun g => g.filter (fun p => p.id ≠ pid))).filter
            (fun g => 0 < g.length)
        if 0 < filteredGroups.length then some (kv.1, filteredGroups) else none) }

/-! ## Score entry (`handleUpdateMatchScore`, `updateMatchScore`) -/

/-- Match outcome from a player's point of view (`'win' | 'loss' | 'draw'`). -/
inductive Outcome where
  | win
  | loss
  | draw
  deriving DecidableEq

/-- The actual score `Sa` of an outcome: 1 / 0.5 / 0. -/
def outcomeScore (o : Outcome) : ℚ :=
  match o with
  | .win => 1
  | .draw => 1/2
  | .loss => 0

/-- Second application root, `calculateEloRating`, with the expected-score
function abstracted as `E` (`E own opp` stands for
`1 / (1 + 10 ** ((opp - own) / 400))`). -/
def calculateEloRating (E : ℚ → ℚ → ℚ) (playerRating opponentRating : ℚ)
    (outcome : Outcome) : ℚ :=
  playerRating + 32 * (outcomeScore outcome - E playerRating opponentRating)

/-- Update the (unique, `id`-keyed) entry of a player map. -/
def mapPlayer (ps : List Player) (pid : String) (f : Player → Player) :
    List Player :=
  ps.map (fun q => if q.id = pid then f q else q)

/-- Set a player's rating in the player map. -/
def setRating (ps : List Player) (pid : String) (r : ℚ) : List Player :=
  mapPlayer ps pid (fun q => { q with rating := r })

/-- The winner derived from two entered scores (`score1 > score2` gives
player 1, `score2 > score1` player 2, equality a draw). -/
def newWinner (m : Match) (s1 s2 : Int) : Option String :=
  if s1 > s2 then some m.player1Id
  else if s2 > s1 then some m.player2Id
  else none

/-- First application root, `handleUpdateMatchScore`: the updated match
record.  The entered scores are (non-null) numbers, so the null guard in the
source always passes and the match becomes complete. -/
def updMatchV1 (m : Match) (s1 s2 : Int) : Match :=
  { m with score1 := some s1, score2 := some s2,
           winnerId := newWinner m s1 s2, isComplete := true }

/-- Second application root, `updateMatchScore`: the updated match record
(same observable result, computed after spreading the new scores). -/
def updMatchV2 (m : Match) (s1 s2 : Int) : Match :=
  let newMatch := { m with score1 := some s1, score2 := some s2 }
  if s1 > s2 then
    { newMatch with winnerId := some newMatch.player1Id, isComplete := true }
  else if s2 > s1 then
    { newMatch with winnerId := some newMatch.player2Id, isComplete := true }
  else { newMatch with winnerId := none, isComplete := true }

/-- Second application root, `updateMatchScore` (uuid variant): updates only
the targeted match; player stats are not touched by this variant. -/
def updateMatchScore (matchId : String) (s1 s2 : Int)
    (st : TournamentState) : TournamentState :=
  { st with «matches» :=
      st.«matches».map (fun m => if m.id = matchId then updMatchV2 m s1 s2 else m) }

/-- First application root, `handleUpdateMatchScore`: the player-stats
mutation performed while mapping over the match with the targeted id.
`pid1`/`pid2` are the player ids of the first match carrying the targeted
id (`prev.matches.find(...)`), `m` is the match being mapped over.  The
source mutates the two found player objects in place; sequencing and the
possible aliasing when `player1Id = player2Id` are reproduced exactly:
ratings are assigned first to player 1 and then to player 2, each read
happening at its position in the original statement order. -/
def humsStats (E : ℚ → ℚ → ℚ) (ps : List Player) (pid1 pid2 : Option String)
    (m : Match) (s1 s2 : Int) : List Player :=
  let winnerId := newWinner m s1 s2
  match pid1.bind (fun a => ps.find? (fun p => p.id = a)),
        pid2.bind (fun b => ps.find? (fun p => p.id = b)) with
  | some p1, some p2 =>
    if m.isComplete = false then
      -- the match just completed: bump one counter of each player...
      let ps1 :=
        if winnerId = some p1.id then
          mapPlayer (mapPlayer ps p1.id (fun q => { q with wins := q.wins + 1 }))
            p2.id (fun q => { q with losses := q.losses + 1 })
        else if winnerId = some p2.id then
          mapPlayer (mapPlayer ps p2.id (fun q => { q with wins := q.wins + 1 }))
            p1.id (fun q => { q with losses := q.losses + 1 })
        else
          mapPlayer (mapPlayer ps p1.id (fun q => { q with draws := q.draws + 1 }))
            p2.id (fun q => { q with draws := q.draws + 1 })
      -- ... then apply the Elo adjustment, both expected scores computed
      -- from the ratings captured before either assignment
      let S1 : ℚ := if winnerId = some p1.id then 1
                    else if winnerId = some p2.id then 0 else 1/2
      let S2 : ℚ := if winnerId = some p1.id then 0
                    else if winnerId = some p2.id then 1 else 1/2
      let R1 := p1.rating
      let R2 := p2.rating
      setRating (setRating ps1 p1.id (R1 + 32 * (S1 - E R1 R2)))
        p2.id (R2 + 32 * (S2 - E R2 R1))
    else if m.isComplete = true ∧ m.winnerId ≠ winnerId then
      -- winner changed after completion: revert the old counters, apply
      -- the new ones, then revert-and-reapply the Elo term
      let ps1 :=
        if m.winnerId = some p1.id then
          mapPlayer (mapPlayer ps p1.id (fun q => { q with wins := q.wins - 1 }))
            p2.id (fun q => { q with losses := q.losses - 1 })
        else if m.winnerId = some p2.id then
          mapPlayer (mapPlayer ps p2.id (fun q => { q with wins := q.wins - 1 }))
            p1.id (fun q => { q with losses := q.losses - 1 })
        else
          mapPlayer (mapPlayer ps p1.id (fun q => { q with draws := q.draws - 1 }))
            p2.id (fun q => { q with draws := q.draws - 1 })
      let ps2 :=
        if winnerId = some p1.id then
          mapPlayer (mapPlayer ps1 p1.id (fun q => { q with wins := q.wins + 1 }))
            p2.id (fun q => { q with losses := q.losses + 1 })
        else if winnerId = some p2.id then
          mapPlayer (mapPlayer ps1 p2.id (fun q => { q with wins := q.wins + 1 }))
            p1.id (fun q => { q with losses := q.losses + 1 })
        else
          mapPlayer (mapPlayer ps1 p1.id (fun q => { q with draws := q.draws + 1 }))
            p2.id (fun q => { q with draws := q.draws + 1 })
      let R1 := p1.rating
      let R2 := p2.rating
      let E1 := E R1 R2
      let E2 := E R2 R1
      let S1n : ℚ := if winnerId = some p1.id then 1
                     else if winnerId = some p2.id then 0 else 1/2
      let S2n : ℚ := if winnerId = some p1.id then 0
                     else if winnerId = some p2.id then 1 else 1/2
      let S1o : ℚ := if m.winnerId = some p1.id then 1
                     else if m.winnerId = some p2.id then 0 else 1/2
      let S2o : ℚ := if m.winnerId = some p1.id then 0
                     else if m.winnerId = some p2.id then 1 else 1/2
      let r1n := R1 - 32 * (S1o - E1) + 32 * (S1n - E1)
      -- player 2's rating is read after player 1's assignment; with
      -- aliased players (equal ids) that read sees the new value
      let r2base := if p1.id = p2.id then r1n else R2
      let r2n := r2base - 32 * (S2o - E2) + 32 * (S2n - E2)
      setRating (setRating ps2 p1.id r1n) p2.id r2n
    else ps
  | _, _ => ps

/-- First application root, `handleUpdateMatchScore`: maps the match list,
replacing every match with the targeted id by its updated record, and
threads the player-stats mutation through the same traversal. -/
def handleUpdateMatchScore (E : ℚ → ℚ → ℚ) (matchId : String) (s1 s2 : Int)
    (st : TournamentState) : TournamentState :=
  let firstMatch := st.«matches».find? (fun m => m.id = matchId)
  let pid1 := firstMatch.map (fun m => m.player1Id)
  let pid2 := firstMatch.map (fun m => m.player2Id)
  { st with
    «matches» := st.«matches».map
      (fun m => if m.id = matchId then updMatchV1 m s1 s2 else m),
    players := st.«matches».foldl
      (fun ps m => if m.id = matchId then humsStats E ps pid1 pid2 m s1 s2 else ps)
      st.players }

/-! ## Round completion -/

/-- Second application root, `completeRound`, step 1: the per-match stats
update applied to every match of the completed round.  The source mutates
the two copied player objects held in an id-keyed `Map`; the sequencing
(counters first, then `player1.rating`, then `player2.rating` computed
against `player1`'s already assigned new rating) is reproduced exactly. -/
def statsStep (E : ℚ → ℚ → ℚ) (ps : List Player) (m : Match) : List Player :=
  match ps.find? (fun p => p.id = m.player1Id),
        ps.find? (fun p => p.id = m.player2Id) with
  | some p1, some p2 =>
    let o1 : Outcome :=
      if m.winnerId = some p1.id then .win
      else if m.winnerId = some p2.id then .loss else .draw
    let o2 : Outcome :=
      if m.winnerId = some p1.id then .loss
      else if m.winnerId = some p2.id then .win else .draw
    let ps1 :=
      if m.winnerId = some p1.id then
        mapPlayer (mapPlayer ps p1.id (fun q => { q with wins := q.wins + 1 }))
          p2.id (fun q => { q with losses := q.losses + 1 })
      else if m.winnerId = some p2.id then
        mapPlayer (mapPlayer ps p1.id (fun q => { q with losses := q.losses + 1 }))
          p2.id (fun q => { q with wins := q.wins + 1 })
      else
        mapPlayer (mapPlayer ps p1.id (fun q => { q with draws := q.draws + 1 }))
          p2.id (fun q => { q with draws := q.draws + 1 })
    -- `player1.rating` is assigned first; the second `calculateEloRating`
    -- call then reads the already updated value (and, when
    -- `player1Id = player2Id`, the two references alias the same object)
    let r1n := calculateEloRating E p1.rating p2.rating o1
    let r2base := if p1.id = p2.id then r1n else p2.rating
    let r2n := calculateEloRating E r2base r1n o2
    setRating (setRating ps1 p1.id r1n) p2.id r2n
  | _, _ => ps

/-- Stable insertion for the descending rating sort: a later element is
placed before the first element whose rating does not exceed it. -/
def insertDesc (p : Player) : List Player → List Player
  | [] => [p]
  | q :: t => if q.rating ≤ p.rating then p :: q :: t else q :: insertDesc p t

/-- The ECMAScript stable `Array.prototype.sort` under the comparator
`(a, b) => b.rating - a.rating`: a stable descending sort by rating.  (A
stable sort's output is uniquely determined by comparator and input, so
this structural insertion sort computes exactly the source's result.) -/
def sortByRatingDesc : List Player → List Player
  | [] => []
  | p :: t => insertDesc p (sortByRatingDesc t)

/-- Second application root, `completeRound` (knockout branch): the winners
of the current round, sorted by rating in descending order. -/
def koWinners (st : TournamentState) : List Player :=
  let crm := st.«matches».filter (fun m => m.round = st.currentRound)
  sortByRatingDesc
    (st.players.filter (fun p => crm.any (fun m => m.winnerId = some p.id)))

/-- A freshly created knockout match: null scores, no winner, incomplete.
The id renders the deterministic stand-in for `uuidv4()`. -/
def mkKnockoutMatch (p1 p2 : Player) (round i : Nat) : Match :=
  { id := "ko-" ++ Nat.repr round ++ "-" ++ Nat.repr i,
    player1Id := p1.id, player2Id := p2.id,
    score1 := none, score2 := none, winnerId := none,
    round := round, isComplete := false,
    category := some p1.category, group := none }

/-- Second application root, `completeRound` (knockout branch): the pairing
loop `for i in 0 .. floor(n/2)` pairing `winners[i]` against
`winners[n - 1 - i]`, skipping a pair whose two ids coincide. -/
def pairNextRound (winners : List Player) (round : Nat) : List Match :=
  (List.range (winners.length / 2)).filterMap (fun i =>
    match winners.get? i, winners.get? (winners.length - 1 - i) with
    | some p1, some p2 =>
      if p1.id = p2.id then none else some (mkKnockoutMatch p1 p2 round i)
    | _, _ => none)

/-- Second application root, `completeRound`.  `summary` is the (never
throwing, see `generateRoundSummaryV2`) round-summary result and
`hybridNext` abstracts the matches produced by the Hybrid-format branch,
which delegates bracket generation to the external LLM call
`generateKnockoutBracketWithGemini`.  Aborts (leaving the state unchanged)
when no settings exist or some current-round match is incomplete;
otherwise updates stats and summary and unconditionally increments
`currentRound`. -/
def completeRound (E : ℚ → ℚ → ℚ) (summary : String)
    (hybridNext : List Match) (st : TournamentState) : TournamentState :=
  match st.tournamentSettings with
  | none => st
  | some settings =>
    let crm := st.«matches».filter (fun m => m.round = st.currentRound)
    if crm.any (fun m => m.isComplete = false) then st
    else
      let players1 := crm.foldl (statsStep E) st.players
      let summaries1 := recordSet st.roundSummaries (Nat.repr st.currentRound) summary
      let nextRoundMatches : List Match :=
        match settings.matchFormat with
        | .knockout =>
          let winners := koWinners st
          if winners.length < 2 then []
          else pairNextRound winners (st.currentRound + 1)
        | .roundRobin => []
        | .hybrid => hybridNext
      { st with
        players := players1,
        roundSummaries := summaries1,
        «matches» := st.«matches» ++ nextRoundMatches,
        currentRound := st.currentRound + 1,
        tournamentSettings := some { settings with customFixtureUploaded := false } }

/-- Second application root, `isTournamentCompleted` (the `useMemo`
predicate): all matches up to the current round complete, and for knockout
at most one distinct winner id in the current round. -/
def isTournamentCompletedV2 (st : TournamentState) : Bool :=
  match st.tournamentSettings with
  | none => false
  | some s =>
    if st.currentRound = 0 then false
    else
      let allMatchesCompleted :=
        (st.«matches».filter (fun m => m.round ≤ st.currentRound)).all
          (fun m => m.isComplete)
      if allMatchesCompleted = false then false
      else
        match s.matchFormat with
        | .knockout =>
          let currentRoundWinners := jsSetList
            ((st.«matches».filter (fun m =>
                m.round = st.currentRound ∧ m.winnerId.isSome)).map
              (fun m => m.winnerId))
          (currentRoundWinners.length ≤ 1 : Bool) && allMatchesCompleted
        | .roundRobin => allMatchesCompleted
        | .hybrid => allMatchesCompleted && (1 < st.currentRound : Bool)

/-! ## Round summaries (`generateRoundSummary`, two variants) -/

/-- `services/geminiService.ts`, match detail rows passed to the summary
call by the first application root: player ids resolved to names with the
id itself as fallback. -/
def matchToCsv (players : List Player) (m : Match) : CsvMatch :=
  { player1 := ((players.find? (fun p => p.id = m.player1Id)).map
      (fun p => p.name)).getD m.player1Id,
    player2 := ((players.find? (fun p => p.id = m.player2Id)).map
      (fun p => p.name)).getD m.player2Id,
    round := m.round, category := m.category, group := m.group }

/-- `services/geminiService.ts`, `generateRoundSummary` (first variant).
`api` is the outcome of the awaited `ai.models.generateContent` call.  The
prompt construction maps over the matches and, for every element, calls
`playerMap.find(...)` on a `Map` — which has no `find` method — so with a
non-empty match list a `TypeError` is thrown before the `try` block is
reached and escapes the function; only with an empty match list does the
call proceed, where an API failure is caught and replaced by the fixed
placeholder string. -/
def generateRoundSummaryV1 (api : Except Unit String)
    (matchRows : List CsvMatch) : Except Unit String :=
  if matchRows.isEmpty then
    match api with
    | .ok text => .ok text.trim
    | .error _ => .ok "Failed to generate round summary."
  else .error ()

/-- `unnamed/part_000`, `generateRoundSummary` (second variant, used by the
uuid application root): any API failure is caught and replaced by its fixed
placeholder string, so the function never throws. -/
def generateRoundSummaryV2 (api : Except Unit String) : String :=
  match api with
  | .ok text => text
  | .error _ => "Failed to generate round summary. Please try again."

/-- First application root, `generateKnockoutMatchesForRound`: previous
round matches with a winner are resolved to players (`find` may miss,
giving `undefined`, modelled as `none`), shuffled (`shuffle` stands for the
`Math.random()`-keyed sort), and paired adjacently `(0,1), (2,3), …`,
skipping a pair with a missing slot. -/
def generateKnockoutMatchesForRound (players : List Player)
    (shuffle : List (Option Player) → List (Option Player)) (round : Nat)
    (previousRoundMatches : List Match) : List Match :=
  let winners := (previousRoundMatches.filter (fun m => m.winnerId.isSome)).map
    (fun m => players.find? (fun p => some p.id = m.winnerId))
  if winners.length < 2 then []
  else
    let shuffledWinners := shuffle winners
    (List.range ((shuffledWinners.length + 1) / 2)).filterMap (fun j =>
      match shuffledWinners.getD (2 * j) none,
            shuffledWinners.getD (2 * j + 1) none with
      | some p1, some p2 => some (mkKnockoutMatch p1 p2 round j)
      | _, _ => none)

/-- First application root, `handleCompleteRound`: aborts when some
current-round match is incomplete; otherwise awaits the round summary — an
exception there is caught by the surrounding `try`, leaving the round
state unchanged — and then generates the next round according to the
format, advancing `currentRound` only when the tournament is not marked
completed.  Stats are not updated here (this variant updates them on score
entry). -/
def handleCompleteRound (api : Except Unit String)
    (shuffle : List (Option Player) → List (Option Player))
    (st : TournamentState) : TournamentState :=
  let crm := st.«matches».filter (fun m => m.round = st.currentRound)
  if crm.all (fun m => m.isComplete) = false then st
  else
    match generateRoundSummaryV1 api (crm.map (matchToCsv st.players)) with
    | .error _ => st
    | .ok summary =>
      let nextRound := st.currentRound + 1
      let result : List Match × Bool :=
        match st.tournamentSettings.map (fun s => s.matchFormat) with
        | some MatchFormat.knockout =>
          let nextMatches :=
            generateKnockoutMatchesForRound st.players shuffle nextRound crm
          if nextMatches = [] ∧ crm ≠ [] then ([], true)
          else if nextMatches = [] ∧ crm = [] ∧ st.currentRound = 1 then ([], true)
          else (nextMatches, false)
        | some MatchFormat.roundRobin => ([], true)
        | some MatchFormat.hybrid => ([], true)
        | none => ([], false)
      { st with
        «matches» := st.«matches» ++ result.1,
        currentRound := if result.2 then st.currentRound else nextRound,
        roundSummaries :=
          recordSet st.roundSummaries (Nat.repr st.currentRound) summary }

/-! ## Round-robin fixture generation (`generateRoundRobinFixture`) -/

/-- `services/geminiService.ts`, `generateRoundRobinFixture`: the
client-side check computes which provided player names never occur in the
returned fixture (a `Set` of provided names filtered against the generated
names); the result is only logged as a console warning. -/
def rrMissingPlayers (categoryPlayers : List Player)
    (fixture : List CsvMatch) : List String :=
  let generatedPlayerNames :=
    fixture.foldl (fun acc m => acc ++ [m.player1, m.player2]) []
  (jsSetList (categoryPlayers.map (fun p => p.name))).filter
    (fun n => n ∉ generatedPlayerNames)

/-- `services/geminiService.ts`, `generateRoundRobinFixture`: rejects only
when fewer than two players are in the category (a thrown error) or when
the API call / JSON parse fails (`api = .error`); any parsed fixture is
returned as-is — the missing-player check only warns, and pair coverage is
never validated. -/
def generateRoundRobinFixture (players : List Player) (category : String)
    (api : Except Unit (List CsvMatch)) : Except String (List CsvMatch) :=
  let categoryPlayers := players.filter (fun p => p.category = category)
  if categoryPlayers.length < 2 then
    .error "Need at least two players to generate a round-robin fixture."
  else
    match api with
    | .error _ =>
      .error ("Failed to generate round-robin fixture for " ++ category ++ ".")
    | .ok fixture => .ok fixture

/-- Count of rows pairing the (unordered) names `a` and `b` in a fixture. -/
def pairCount (fixture : List CsvMatch) (a b : String) : Nat :=
  (fixture.filter (fun m =>
    (m.player1 = a ∧ m.player2 = b) ∨ (m.player1 = b ∧ m.player2 = a))).length

/-- Modelled from the spec: "the returned fixture covers every unordered
pair of distinct players in the category exactly once" — every unordered
pair of distinct names occurs on exactly one row, and every row is such a
pair of category players. -/
def coversPairsExactlyOnce (names : List String) (fixture : List CsvMatch) :
    Bool :=
  (names.all (fun a => names.all (fun b =>
      a = b ∨ pairCount fixture a b = 1))) &&
  (fixture.all (fun m =>
      m.player1 ∈ names ∧ m.player2 ∈ names ∧ m.player1 ≠ m.player2))

/-! ## The exact Elo formula over the reals

The source computes ratings with JavaScript floating-point numbers; the
idealised real-valued arithmetic is modelled over `ℝ` for the claims that
concern the formula itself. -/

/-- The actual score of an outcome, over `ℝ`. -/
noncomputable def outcomeScoreR (o : Outcome) : ℝ :=
  match o with
  | .win => 1
  | .draw => 1/2
  | .loss => 0

/-- The expected score `Ea = 1 / (1 + 10 ** ((Rb - Ra) / 400))` of a player
rated `ra` against an opponent rated `rb` (`services/geminiService.ts`,
`calculateEloRating` and the inline blocks of `handleUpdateMatchScore`). -/
noncomputable def expectedScore (ra rb : ℝ) : ℝ :=
  1 / (1 + (10 : ℝ) ^ ((rb - ra) / 400))

/-- Second application root, `calculateEloRating`:
`Ra + K * (Sa - Ea)` with `K = 32`. -/
noncomputable def calculateEloRatingR (playerRating opponentRating : ℝ)
    (outcome : Outcome) : ℝ :=
  playerRating +
    32 * (outcomeScoreR outcome - expectedScore playerRating opponentRating)

/-- Second application root, `completeRound`, step 1 rating updates for one
match: `player1.rating` is assigned first, and the second call then passes
the already updated `player1.rating` as the opponent rating. -/
noncomputable def completeRoundRatingPair (r1 r2 : ℝ) (o1 o2 : Outcome) :
    ℝ × ℝ :=
  let r1n := calculateEloRatingR r1 r2 o1
  let r2n := calculateEloRatingR r2 r1n o2
  (r1n, r2n)

/-- First application root, `handleUpdateMatchScore` (completion branch):
both expected scores are computed from `R1`/`R2` captured before either
rating assignment. -/
noncomputable def handleUpdateRatingPair (r1 r2 : ℝ) (o1 o2 : Outcome) :
    ℝ × ℝ :=
  (r1 + 32 * (outcomeScoreR o1 - expectedScore r1 r2),
   r2 + 32 * (outcomeScoreR o2 - expectedScore r2 r1))

/-! ## Persistence round-trip (local-storage serialization)

Both application roots persist the whole state with
`localStorage.setItem(KEY, JSON.stringify(state))` and rehydrate with
`JSON.parse` plus default-filling.  The JSON value space is modelled as an
inductive type (`JSON.parse ∘ JSON.stringify` is the identity on the
JSON-safe values the state consists of; numbers round-trip exactly). -/

/-- JSON values.  Numbers carry the exact numeric value. -/
inductive Json where
  | null : Json
  | bool : Bool → Json
  | num : ℚ → Json
  | str : String → Json
  | arr : List Json → Json
  | obj : List (String × Json) → Json

/-- Field lookup on a JSON object. -/
def lookupKey : List (String × Json) → String → Option Json
  | [], _ => none
  | (kk, v) :: rest, k => if kk = k then some v else lookupKey rest k

/-- `j[k]` for a JSON value (`undefined` is `none`). -/
def getField (j : Json) (k : String) : Option Json :=
  match j with
  | .obj kvs => lookupKey kvs k
  | _ => none

/-- Read a JSON string. -/
def asStr : Json → Option String
  | .str s => some s
  | _ => none

/-- Read a JSON number. -/
def asNum : Json → Option ℚ
  | .num q => some q
  | _ => none

/-- Read an integer-valued JSON number. -/
def asInt (j : Json) : Option Int :=
  match asNum j with
  | some q => if q.den = 1 then some q.num else none
  | none => none

/-- Read a natural-valued JSON number. -/
def asNat (j : Json) : Option Nat :=
  match asInt j with
  | some i => if 0 ≤ i then some i.toNat else none
  | none => none

/-- Encode an optional value, `none` as JSON `null`. -/
def encOpt {α : Type} (f : α → Json) : Option α → Json
  | none => .null
  | some a => f a

/-- Decode an optional value. -/
def decOpt {α : Type} (f : Json → Option α) (j : Json) : Option (Option α) :=
  match j with
  | .null => some none
  | _ => (f j).map some

/-- Decode every element of a JSON array body. -/
def decListAux {α : Type} (f : Json → Option α) : List Json → Option (List α)
  | [] => some []
  | j :: js =>
    match f j, decListAux f js with
    | some a, some as => some (a :: as)
    | _, _ => none

/-- Decode a JSON array. -/
def decList {α : Type} (f : Json → Option α) (j : Json) : Option (List α) :=
  match j with
  | .arr js => decListAux f js
  | _ => none

/-- Decode a JSON object into an association list of decoded values. -/
def decRecordAux {α : Type} (f : Json → Option α) :
    List (String × Json) → Option (List (String × α))
  | [] => some []
  | (k, v) :: rest =>
    match f v, decRecordAux f rest with
    | some a, some as => some ((k, a) :: as)
    | _, _ => none

/-- Decode a JSON object record. -/
def decRecord {α : Type} (f : Json → Option α) (j : Json) :
    Option (List (String × α)) :=
  match j with
  | .obj kvs => decRecordAux f kvs
  | _ => none

/-- Encode an object record. -/
def encRecord {α : Type} (f : α → Json) (kvs : List (String × α)) : Json :=
  .obj (kvs.map (fun kv => (kv.1, f kv.2)))

/-- Serialize a player. -/
def encPlayer (p : Player) : Json :=
  .obj [("id", .str p.id), ("name", .str p.name),
        ("mobileNumber", .str p.mobileNumber), ("rating", .num p.rating),
        ("wins", .num p.wins), ("losses", .num p.losses),
        ("draws", .num p.draws), ("category", .str p.category)]

/-- Rehydrate a player. -/
def decPlayer (j : Json) : Option Player :=
  match getField j "id" >>= asStr, getField j "name" >>= asStr,
        getField j "mobileNumber" >>= asStr, getField j "rating" >>= asNum,
        getField j "wins" >>= asInt, getField j "losses" >>= asInt,
        getField j "draws" >>= asInt, getField j "category" >>= asStr with
  | some id, some name, some mob, some rating, some w, some l, some d,
    some cat =>
    some { id := id, name := name, mobileNumber := mob, rating := rating,
           wins := w, losses := l, draws := d, category := cat }
  | _, _, _, _, _, _, _, _ => none

/-- Serialize a match. -/
def encMatch (m : Match) : Json :=
  .obj [("id", .str m.id), ("player1Id", .str m.player1Id),
        ("player2Id", .str m.player2Id),
        ("score1", encOpt (fun i : Int => .num (i : ℚ)) m.score1),
        ("score2", encOpt (fun i : Int => .num (i : ℚ)) m.score2),
        ("winnerId", encOpt Json.str m.winnerId),
        ("round", .num m.round),
        ("isComplete", .bool m.isComplete),
        ("category", encOpt Json.str m.category),
        ("group", encOpt Json.str m.group)]

/-- Read a JSON boolean. -/
def asBool : Json → Option Bool
  | .bool b => some b
  | _ => none

/-- Rehydrate a match. -/
def decMatch (j : Json) : Option Match :=
  match getField j "id" >>= asStr, getField j "player1Id" >>= asStr,
        getField j "player2Id" >>= asStr,
        getField j "score1" >>= decOpt asInt,
        getField j "score2" >>= decOpt asInt,
        getField j "winnerId" >>= decOpt asStr,
        getField j "round" >>= asNat,
        getField j "isComplete" >>= asBool,
        getField j "category" >>= decOpt asStr,
        getField j "group" >>= decOpt asStr with
  | some id, some p1, some p2, some s1, some s2, some w, some r, some c,
    some cat, some g =>
    some { id := id, player1Id := p1, player2Id := p2, score1 := s1,
           score2 := s2, winnerId := w, round := r, isComplete := c,
           category := cat, group := g }
  | _, _, _, _, _, _, _, _, _, _ => none

/-- Serialize a fixture row. -/
def encCsvMatch (m : CsvMatch) : Json :=
  .obj [("player1", .str m.player1), ("player2", .str m.player2),
        ("round", .num m.round),
        ("category", encOpt Json.str m.category),
        ("group", encOpt Json.str m.group)]

/-- Rehydrate a fixture row. -/
def decCsvMatch (j : Json) : Option CsvMatch :=
  match getField j "player1" >>= asStr, getField j "player2" >>= asStr,
        getField j "round" >>= asNat,
        getField j "category" >>= decOpt asStr,
        getField j "group" >>= decOpt asStr with
  | some p1, some p2, some r, some cat, some g =>
    some { player1 := p1, player2 := p2, round := r, category := cat,
           group := g }
  | _, _, _, _, _ => none

/-- Serialize the match-format enum to its string value. -/
def encMatchFormat (f : MatchFormat) : Json :=
  match f with
  | .knockout => .str "knockout"
  | .roundRobin => .str "round-robin"
  | .hybrid => .str "hybrid"

/-- Rehydrate the match-format enum. -/
def decMatchFormat (j : Json) : Option MatchFormat :=
  match j with
  | .str "knockout" => some .knockout
  | .str "round-robin" => some .roundRobin
  | .str "hybrid" => some .hybrid
  | _ => none

/-- Serialize the tournament settings. -/
def encSettings (s : TournamentSettings) : Json :=
  .obj [("tournamentName", .str s.tournamentName),
        ("numRounds", .num s.numRounds),
        ("selectedPlayerIds", .arr (s.selectedPlayerIds.map Json.str)),
        ("matchFormat", encMatchFormat s.matchFormat),
        ("customFixtureUploaded", .bool s.customFixtureUploaded)]

/-- Rehydrate the tournament settings. -/
def decSettings (j : Json) : Option TournamentSettings :=
  match getField j "tournamentName" >>= asStr,
        getField j "numRounds" >>= asNat,
        getField j "selectedPlayerIds" >>= decList asStr,
        getField j "matchFormat" >>= decMatchFormat,
        getField j "customFixtureUploaded" >>= asBool with
  | some n, some r, some ids, some f, some c =>
    some { tournamentName := n, numRounds := r, selectedPlayerIds := ids,
           matchFormat := f, customFixtureUploaded := c }
  | _, _, _, _, _ => none

/-- `JSON.stringify(state)`: the entire aggregate is serialized verbatim
under the single storage key. -/
def encodeState (st : TournamentState) : Json :=
  .obj [("players", .arr (st.players.map encPlayer)),
        ("matches", .arr (st.«matches».map encMatch)),
        ("currentRound", .num st.currentRound),
        ("tournamentSettings", encOpt encSettings st.tournamentSettings),
        ("roundSummaries", encRecord Json.str st.roundSummaries),
        ("generatedFixtures",
          encRecord (fun rows => .arr (rows.map encCsvMatch))
            st.generatedFixtures),
        ("publishedFixtures",
          encRecord (fun rows => .arr (rows.map encCsvMatch))
            st.publishedFixtures),
        ("generatedHybridGroups",
          encRecord (fun groups =>
              .arr (groups.map (fun g => .arr (g.map encPlayer))))
            st.generatedHybridGroups)]

/-- Decode one state field, falling back to the given default when the key
is absent or not decodable (the `{ ...initialState, ...parsedState }`
spread semantics of the first application root). -/
def decFieldD {α : Type} (j : Json) (k : String) (dec : Json → Option α)
    (default : α) : α :=
  ((getField j k).bind dec).getD default

/-- First application root: rehydration
`{ ...initialState, ...JSON.parse(stored) }` — every field present in the
blob wins, absent fields fall back to `initialState`. -/
def rehydrateV1 (j : Json) : TournamentState :=
  { players := decFieldD j "players" (decList decPlayer) initialState.players,
    «matches» := decFieldD j "matches" (decList decMatch) initialState.«matches»,
    currentRound :=
      decFieldD j "currentRound" asNat initialState.currentRound,
    tournamentSettings :=
      decFieldD j "tournamentSettings" (decOpt decSettings)
        initialState.tournamentSettings,
    roundSummaries :=
      decFieldD j "roundSummaries" (decRecord asStr) initialState.roundSummaries,
    generatedFixtures :=
      decFieldD j "generatedFixtures" (decRecord (decList decCsvMatch))
        initialState.generatedFixtures,
    publishedFixtures :=
      decFieldD j "publishedFixtures" (decRecord (decList decCsvMatch))
        initialState.publishedFixtures,
    generatedHybridGroups :=
      decFieldD j "generatedHybridGroups"
        (decRecord (decList (decList decPlayer)))
        initialState.generatedHybridGroups }

/-- Second application root: rehydration spreads the parsed state and
default-fills only the newer cache fields (`generatedFixtures`,
`publishedFixtures`, `generatedHybridGroups`, …); the core fields are taken
from the blob as-is. -/
def rehydrateV2 (j : Json) : Option TournamentState :=
  match getField j "players" >>= decList decPlayer,
        getField j "matches" >>= decList decMatch,
        getField j "currentRound" >>= asNat,
        getField j "tournamentSettings" >>= decOpt decSettings,
        getField j "roundSummaries" >>= decRecord asStr with
  | some ps, some ms, some r, some s, some sums =>
    some { players := ps, «matches» := ms, currentRound := r,
           tournamentSettings := s, roundSummaries := sums,
           generatedFixtures :=
             decFieldD j "generatedFixtures" (decRecord (decList decCsvMatch)) [],
           publishedFixtures :=
             decFieldD j "publishedFixtures" (decRecord (decList decCsvMatch)) [],
           generatedHybridGroups :=
             decFieldD j "generatedHybridGroups"
               (decRecord (decList (decList decPlayer))) [] }
  | _, _, _, _, _ => none

/-! ## Statement-level predicates -/

/-- The match-record invariant of the spec: `isComplete` true iff both
scores are set; `winnerId` set iff the match is complete with differing
scores; a set winner is one of the two player ids. -/
def matchInv (m : Match) : Prop :=
  (m.isComplete = true ↔ (m.score1.isSome = true ∧ m.score2.isSome = true)) ∧
  (m.winnerId.isSome = true ↔ (m.isComplete = true ∧ m.score1 ≠ m.score2)) ∧
  (m.winnerId = none ∨ m.winnerId = some m.player1Id ∨
    m.winnerId = some m.player2Id)

instance (m : Match) : Decidable (matchInv m) := by
  unfold matchInv; infer_instance

/-- `wins + losses + draws`. -/
def sumWLD (p : Player) : Int := p.wins + p.losses + p.draws

/-- Exactly one of the three counters is incremented, the other two and the
identity fields are unchanged (the rating may change). -/
def counterBump (q qq : Player) : Prop :=
  qq.id = q.id ∧ qq.name = q.name ∧ sumWLD qq = sumWLD q + 1 ∧
  ((qq.wins = q.wins + 1 ∧ qq.losses = q.losses ∧ qq.draws = q.draws) ∨
   (qq.wins = q.wins ∧ qq.losses = q.losses + 1 ∧ qq.draws = q.draws) ∨
   (qq.wins = q.wins ∧ qq.losses = q.losses ∧ qq.draws = q.draws + 1))

/-- Per-player effect of completing the match `m`: both participants get
exactly one counter bump, everyone else is untouched. -/
def statsRel (m : Match) (q qq : Player) : Prop :=
  (q.id = m.player1Id ∨ q.id = m.player2Id → counterBump q qq) ∧
  (q.id ≠ m.player1Id ∧ q.id ≠ m.player2Id → qq = q)

/-! ## Concrete example data used by witnesses and counterexamples -/

/-- A concrete stand-in for the expected-score function. -/
def E0 : ℚ → ℚ → ℚ := fun _ _ => 1/2

/-- The identity shuffle (one possible `Math.random` outcome). -/
def shuffle0 : List (Option Player) → List (Option Player) := fun l => l

def pA : Player :=
  { id := "pa", name := "A", mobileNumber := "1", rating := 1500,
    wins := 0, losses := 0, draws := 0, category := "30+" }

def pB : Player :=
  { id := "pb", name := "B", mobileNumber := "2", rating := 1400,
    wins := 0, losses := 0, draws := 0, category := "30+" }

def pC : Player :=
  { id := "pc", name := "C", mobileNumber := "3", rating := 1300,
    wins := 0, losses := 0, draws := 0, category := "30+" }

def pD : Player :=
  { id := "pd", name := "D", mobileNumber := "4", rating := 1200,
    wins := 0, losses := 0, draws := 0, category := "30+" }

def koSettings : TournamentSettings :=
  { tournamentName := "T", numRounds := 3,
    selectedPlayerIds := ["pa", "pb"], matchFormat := .knockout,
    customFixtureUploaded := false }

/-- An unscored round-1 match between A and B. -/
def mInc : Match :=
  { id := "m1", player1Id := "pa", player2Id := "pb", score1 := none,
    score2 := none, winnerId := none, round := 1, isComplete := false,
    category := some "30+", group := none }

/-- A completed round-1 match, A beat B 11–5. -/
def mDoneAB : Match :=
  { id := "m1", player1Id := "pa", player2Id := "pb", score1 := some 11,
    score2 := some 5, winnerId := some "pa", round := 1, isComplete := true,
    category := some "30+", group := none }

/-- A completed round-1 match, C beat D 11–7. -/
def mDoneCD : Match :=
  { id := "m2", player1Id := "pc", player2Id := "pd", score1 := some 11,
    score2 := some 7, winnerId := some "pc", round := 1, isComplete := true,
    category := some "30+", group := none }

/-- Knockout in round 1 with its only match still unscored. -/
def stIncomplete : TournamentState :=
  { initialState with
    players := [pA, pB], «matches» := [mInc],
    currentRound := 1, tournamentSettings := some koSettings }

/-- Knockout in round 1, single match played: exactly one winner remains. -/
def stOneWinner : TournamentState :=
  { initialState with
    players := [pA, pB], «matches» := [mDoneAB],
    currentRound := 1, tournamentSettings := some koSettings }

/-- Knockout in round 1 with four players and both matches played. -/
def stTwoWinners : TournamentState :=
  { initialState with
    players := [pA, pB, pC, pD],
    «matches» := [mDoneAB, mDoneCD], currentRound := 1,
    tournamentSettings := some koSettings }

def pX : Player :=
  { id := "px", name := "X", mobileNumber := "5", rating := 1500,
    wins := 0, losses := 0, draws := 0, category := "30+" }

def pY : Player :=
  { id := "py", name := "Y", mobileNumber := "6", rating := 1500,
    wins := 0, losses := 0, draws := 0, category := "30+" }

/-- A cached fixture row naming players X and Y. -/
def rowXY : CsvMatch :=
  { player1 := "X", player2 := "Y", round := 1, category := some "30+",
    group := none }

/-- A state whose published-fixture cache holds a row naming player X. -/
def stPublished : TournamentState :=
  { initialState with
    players := [pX, pY],
    generatedFixtures := [("30+", [rowXY])],
    publishedFixtures := [("30+", [rowXY])] }

/-- A single fixture row pairing A and B. -/
def rowAB : CsvMatch :=
  { player1 := "A", player2 := "B", round := 1, category := some "30+",
    group := none }

/-! # Theorems -/

/-- A `filterMap` whose function succeeds on every element is a `map`. -/
theorem filterMap_eq_map_on {α β : Type} (f : α → Option β) (g : α → β)
    (l : List α) (h : ∀ a ∈ l, f a = some (g a)) :
    l.filterMap f = l.map g := by
  induction l with
  | nil => rfl
  | cons a t ih =>
    rw [List.filterMap_cons, List.map_cons, h a (List.mem_cons_self a t),
      ih (fun x hx => h x (List.mem_cons_of_mem a hx))]

/-- The first variant's updated match record satisfies the invariant. -/
theorem updMatchV1_matchInv (m : Match) (s1 s2 : Int) :
    matchInv (updMatchV1 m s1 s2) := by
  unfold updMatchV1 newWinner matchInv
  rcases lt_trichotomy s1 s2 with h | h | h
  · simp [not_lt_of_gt h, h, (ne_of_lt h)]
  · simp [h]
  · simp [not_lt_of_gt h, h, (ne_of_gt h)]

/-- The second variant's updated match record satisfies the invariant. -/
theorem updMatchV2_matchInv (m : Match) (s1 s2 : Int) :
    matchInv (updMatchV2 m s1 s2) := by
  unfold updMatchV2 matchInv
  rcases lt_trichotomy s1 s2 with h | h | h
  · simp [not_lt_of_gt h, h, (ne_of_lt h)]
  · simp [h]
  · simp [not_lt_of_gt h, h, (ne_of_gt h)]

/-- A freshly created knockout match satisfies the invariant. -/
theorem mkKnockoutMatch_matchInv (p1 p2 : Player) (round i : Nat) :
    matchInv (mkKnockoutMatch p1 p2 round i) := by
  unfold mkKnockoutMatch matchInv
  simp

/-- C1: for every match in the tournament state, after either score-entry
operation (`handleUpdateMatchScore` of the first application root,
`updateMatchScore` of the second) and for every freshly created match, the
`isComplete` flag is true iff both scores are set, `winnerId` is set iff
the match is complete with differing scores, and a set winner is one of
the two player ids. -/
theorem c1_score_entry_invariant (E : ℚ → ℚ → ℚ) (matchId : String)
    (s1 s2 : Int) (st : TournamentState)
    (h : ∀ m ∈ st.«matches», matchInv m) :
    (∀ m ∈ (handleUpdateMatchScore E matchId s1 s2 st).«matches», matchInv m) ∧
    (∀ m ∈ (updateMatchScore matchId s1 s2 st).«matches», matchInv m) ∧
    (∀ p1 p2 round i, matchInv (mkKnockoutMatch p1 p2 round i)) := by
  refine ⟨?_, ?_, fun p1 p2 round i => mkKnockoutMatch_matchInv p1 p2 round i⟩
  · intro m hm
    simp only [handleUpdateMatchScore, List.mem_map] at hm
    obtain ⟨a, ha, rfl⟩ := hm
    by_cases hid : a.id = matchId
    · simp only [hid, if_true, if_pos]
      exact updMatchV1_matchInv a s1 s2
    · simp only [if_neg hid]
      exact h a ha
  · intro m hm
    simp only [updateMatchScore, List.mem_map] at hm
    obtain ⟨a, ha, rfl⟩ := hm
    by_cases hid : a.id = matchId
    · simp only [hid, if_true, if_pos]
      exact updMatchV2_matchInv a s1 s2
    · simp only [if_neg hid]
      exact h a ha

/-- Witness for C1 at a concrete state. -/
theorem c1_score_entry_invariant_witness : matchInv (mkKnockoutMatch pA pB 2 0) :=
  (c1_score_entry_invariant E0 "m1" 11 5 stIncomplete (by decide)).2.2 pA pB 2 0

/-- `handleCompleteRound` aborts when a current-round match is incomplete. -/
theorem handleCompleteRound_incomplete (api : Except Unit String)
    (shuffle : List (Option Player) → List (Option Player))
    (st : TournamentState)
    (h : ∃ m ∈ st.«matches», m.round = st.currentRound ∧ m.isComplete = false) :
    handleCompleteRound api shuffle st = st := by
  obtain ⟨m, hm, hr, hc⟩ := h
  have hall : (st.«matches».filter
      (fun m => m.round = st.currentRound)).all (fun m => m.isComplete) = false := by
    apply List.all_eq_false.mpr
    refine ⟨m, List.mem_filter.mpr ⟨hm, by simp [hr]⟩, by simp [hc]⟩
  unfold handleCompleteRound
  simp only [hall, if_pos]

/-- `completeRound` aborts when a current-round match is incomplete. -/
theorem completeRound_incomplete (E : ℚ → ℚ → ℚ) (summary : String)
    (hybridNext : List Match) (st : TournamentState)
    (h : ∃ m ∈ st.«matches», m.round = st.currentRound ∧ m.isComplete = false) :
    completeRound E summary hybridNext st = st := by
  obtain ⟨m, hm, hr, hc⟩ := h
  have hany : (st.«matches».filter
      (fun m => m.round = st.currentRound)).any (fun m => m.isComplete = false) = true := by
    apply List.any_eq_true.mpr
    refine ⟨m, List.mem_filter.mpr ⟨hm, by simp [hr]⟩, by simp [hc]⟩
  unfold completeRound
  cases hset : st.tournamentSettings with
  | none => rfl
  | some s => simp only [hany, if_pos]

/-- C2: neither round-completion operation advances `currentRound` out of a
round with an incomplete match: under that condition both leave the whole
state (in particular `currentRound` and the match list) unchanged, and
`currentRound` changes only when every current-round match is complete. -/
theorem c2_round_completion_guard (api : Except Unit String)
    (shuffle : List (Option Player) → List (Option Player))
    (E : ℚ → ℚ → ℚ) (summary : String) (hybridNext : List Match)
    (st : TournamentState) :
    ((∃ m ∈ st.«matches», m.round = st.currentRound ∧ m.isComplete = false) →
        handleCompleteRound api shuffle st = st ∧
        completeRound E summary hybridNext st = st) ∧
    ((handleCompleteRound api shuffle st).currentRound ≠ st.currentRound →
        ∀ m ∈ st.«matches», m.round = st.currentRound → m.isComplete = true) ∧
    ((completeRound E summary hybridNext st).currentRound ≠ st.currentRound →
        ∀ m ∈ st.«matches», m.round = st.currentRound → m.isComplete = true) := by
  refine ⟨fun h => ⟨handleCompleteRound_incomplete api shuffle st h,
      completeRound_incomplete E summary hybridNext st h⟩, ?_, ?_⟩
  · intro hne m hm hr
    by_contra hc
    simp only [Bool.not_eq_true] at hc
    exact hne (by
      rw [handleCompleteRound_incomplete api shuffle st ⟨m, hm, hr, hc⟩])
  · intro hne m hm hr
    by_contra hc
    simp only [Bool.not_eq_true] at hc
    exact hne (by
      rw [completeRound_incomplete E summary hybridNext st ⟨m, hm, hr, hc⟩])

/-- Witness for C2 at a concrete state with an unscored round-1 match. -/
theorem c2_round_completion_guard_witness :
    handleCompleteRound (Except.ok "txt") shuffle0 stIncomplete = stIncomplete ∧
    completeRound E0 "txt" [] stIncomplete = stIncomplete :=
  (c2_round_completion_guard (Except.ok "txt") shuffle0 E0 "txt" [] stIncomplete).1
    ⟨mInc, by decide, by decide, by decide⟩

/-- C3, failing input: both players rated 1500, player 1 wins.
`completeRound` assigns `player1.rating` first and then computes player 2's
expected score against the already-updated rating 1516, so player 2's new
rating differs from the claimed
`oldRating + 32 * (actual − expected(oldRatings))` (which would be 1484;
the code yields `1500 − 32 / (1 + 10 ^ 0.04) ≈ 1484.73`). -/
theorem c3_completeRound_elo_uses_updated_rating :
    (completeRoundRatingPair 1500 1500 Outcome.win Outcome.loss).2 ≠
      calculateEloRatingR 1500 1500 Outcome.loss := by
  have hE0 : expectedScore 1500 1500 = 1/2 := by
    have h0 : ((1500 : ℝ) - 1500) / 400 = 0 := by norm_num
    unfold expectedScore
    rw [h0, Real.rpow_zero]
    norm_num
  have hT : (1 : ℝ) < (10 : ℝ) ^ (((1516 : ℝ) - 1500) / 400) := by
    have h1 : ((1516 : ℝ) - 1500) / 400 = 1/25 := by norm_num
    rw [h1]
    have h2 := (Real.rpow_lt_rpow_left_iff
      (x := 10) (y := 0) (z := 1/25) (by norm_num)).mpr (by norm_num)
    simpa [Real.rpow_zero] using h2
  have hElt : expectedScore 1500 1516 < 1/2 := by
    unfold expectedScore
    have h2 : (2 : ℝ) < 1 + (10 : ℝ) ^ (((1516 : ℝ) - 1500) / 400) := by
      linarith [hT]
    have h3 := one_div_lt_one_div_of_lt (by norm_num : (0:ℝ) < 2) h2
    simpa using h3
  simp only [completeRoundRatingPair, calculateEloRatingR, outcomeScoreR]
  rw [hE0]
  have harg : (1500 : ℝ) + 32 * (1 - 1/2) = 1516 := by norm_num
  rw [harg]
  intro heq
  have : expectedScore 1500 1516 = 1/2 := by linarith [heq]
  linarith [hElt, this]

/-- C7, failing input: `stOneWinner` — a completed, non-empty round 1.  The
first variant's `generateRoundSummary` calls `playerMap.find` (a `Map` has
no `find` method) while building the prompt, before its `try` block, so a
`TypeError` escapes; `handleCompleteRound`'s outer catch then leaves the
round un-advanced for every API outcome, even though the completion guard
is satisfied.  The `unnamed/part_000` variant, by contrast, returns its
fixed placeholder on failure. -/
theorem c7_summary_failure_blocks_round :
    (stOneWinner.«matches».all (fun m => m.isComplete)) = true ∧
    (∀ api : Except Unit String,
        handleCompleteRound api shuffle0 stOneWinner = stOneWinner) ∧
    generateRoundSummaryV2 (Except.error ()) =
      "Failed to generate round summary. Please try again." := by
  refine ⟨by decide, fun api => ?_, rfl⟩
  rfl

/-- A `filterMap` whose function succeeds everywhere preserves length and
maps positions pointwise. -/
theorem filterMap_all_some {α β : Type} (f : α → Option β) :
    ∀ l : List α, (∀ a ∈ l, (f a).isSome = true) →
      (l.filterMap f).length = l.length ∧
      ∀ i a, l.get? i = some a → (l.filterMap f).get? i = f a := by
  intro l
  induction l with
  | nil => exact fun _ => ⟨rfl, fun i a hia => by simp at hia⟩
  | cons a t ih =>
    intro h
    obtain ⟨b, hb⟩ :=
      Option.isSome_iff_exists.mp (h a (List.mem_cons_self a t))
    have ht := ih (fun x hx => h x (List.mem_cons_of_mem a hx))
    constructor
    · rw [List.filterMap_cons, hb]
      simp [ht.1]
    · intro i x hix
      cases i with
      | zero =>
        rw [List.get?_cons_zero, Option.some_inj] at hix
        subst hix
        rw [List.filterMap_cons, hb, List.get?_cons_zero]
      | succ n =>
        rw [List.get?_cons_succ] at hix
        rw [List.filterMap_cons, hb, List.get?_cons_succ]
        exact ht.2 n x hix

/-- In a list of players with pairwise distinct ids, the positions `i` and
`length − 1 − i` of the pairing loop hold distinct players. -/
theorem pairNextRound_aux (w : List Player)
    (hnodup : (w.map (fun p => p.id)).Nodup) :
    ∀ i, i < w.length / 2 → ∃ p1 p2,
      w.get? i = some p1 ∧ w.get? (w.length - 1 - i) = some p2 ∧
      p1.id ≠ p2.id := by
  intro i hi
  have hlen : i < w.length := by omega
  have hlt : i < w.length - 1 - i := by omega
  have hlen2 : w.length - 1 - i < w.length := by omega
  refine ⟨w.get ⟨i, hlen⟩, w.get ⟨w.length - 1 - i, hlen2⟩,
    List.get?_eq_get hlen, List.get?_eq_get hlen2, fun heq => ?_⟩
  have h1 : (w.map (fun p => p.id)).get? i = some (w.get ⟨i, hlen⟩).id := by
    rw [List.get?_map, List.get?_eq_get hlen]
    rfl
  have h2 : (w.map (fun p => p.id)).get? (w.length - 1 - i) =
      some (w.get ⟨w.length - 1 - i, hlen2⟩).id := by
    rw [List.get?_map, List.get?_eq_get hlen2]
    rfl
  have hgets : (w.map (fun p => p.id)).get? i =
      (w.map (fun p => p.id)).get? (w.length - 1 - i) := by
    rw [h1, h2, heq]
  have hik := List.get?_inj (by simpa using hlen) hnodup hgets
  omega

/-- Positional characterisation of the knockout pairing loop: with pairwise
distinct ids it produces `⌊n/2⌋` matches, the `i`-th pairing `winners[i]`
against `winners[n − 1 − i]`. -/
theorem pairNextRound_spec (w : List Player) (round : Nat)
    (hnodup : (w.map (fun p => p.id)).Nodup) :
    (pairNextRound w round).length = w.length / 2 ∧
    ∀ i, i < w.length / 2 →
      ∃ m p1 p2, (pairNextRound w round).get? i = some m ∧
        w.get? i = some p1 ∧ w.get? (w.length - 1 - i) = some p2 ∧
        m = mkKnockoutMatch p1 p2 round i := by
  have hsome : ∀ i ∈ List.range (w.length / 2),
      ((fun i =>
        match w.get? i, w.get? (w.length - 1 - i) with
        | some p1, some p2 =>
          if p1.id = p2.id then none
          else some (mkKnockoutMatch p1 p2 round i)
        | _, _ => none) i).isSome = true := by
    intro i hi
    obtain ⟨p1, p2, hp1, hp2, hne⟩ :=
      pairNextRound_aux w hnodup i (List.mem_range.mp hi)
    simp only [hp1, hp2, if_neg hne]
    rfl
  constructor
  · unfold pairNextRound
    rw [(filterMap_all_some _ (List.range (w.length / 2)) hsome).1,
      List.length_range]
  · intro i hi
    obtain ⟨p1, p2, hp1, hp2, hne⟩ := pairNextRound_aux w hnodup i hi
    refine ⟨mkKnockoutMatch p1 p2 round i, p1, p2, ?_, hp1, hp2, rfl⟩
    unfold pairNextRound
    rw [(filterMap_all_some _ (List.range (w.length / 2)) hsome).2 i i
      (List.get?_range hi)]
    simp only [hp1, hp2, if_neg hne]

/-- `insertDesc` permutes the inserted element into the list. -/
theorem insertDesc_perm (p : Player) :
    ∀ l : List Player, List.Perm (insertDesc p l) (p :: l) := by
  intro l
  induction l with
  | nil => exact List.Perm.refl _
  | cons q t ih =>
    unfold insertDesc
    by_cases hq : q.rating ≤ p.rating
    · rw [if_pos hq]
    · rw [if_neg hq]
      exact (ih.cons q).trans (List.Perm.swap p q t)

/-- The stable sort is a permutation. -/
theorem sortByRatingDesc_perm :
    ∀ l : List Player, List.Perm (sortByRatingDesc l) l := by
  intro l
  induction l with
  | nil => exact List.Perm.refl _
  | cons p t ih =>
    unfold sortByRatingDesc
    exact (insertDesc_perm p (sortByRatingDesc t)).trans (ih.cons p)

/-- The sorted winner list inherits distinct ids from the player registry. -/
theorem koWinners_nodup (st : TournamentState)
    (h : (st.players.map (fun p => p.id)).Nodup) :
    ((koWinners st).map (fun p => p.id)).Nodup := by
  simp only [koWinners]
  have hsub := List.filter_sublist (p := fun p =>
    (st.«matches».filter (fun m => m.round = st.currentRound)).any
      (fun m => m.winnerId = some p.id)) st.players
  have hperm := sortByRatingDesc_perm
    (st.players.filter (fun p =>
      (st.«matches».filter (fun m => m.round = st.currentRound)).any
        (fun m => m.winnerId = some p.id)))
  exact ((hperm.map (fun p => p.id)).nodup_iff).mpr
    ((hsub.map (fun p => p.id)).nodup h)

/-- C4 counterexample: completing a knockout round that leaves a single
winner still increments `currentRound` from 1 to 2 — the claimed
"`currentRound` does not advance further" fails on `completeRound`
(no round-2 matches are created, though). -/
theorem c4_single_winner_still_advances :
    (koWinners stOneWinner).length = 1 ∧
    (completeRound E0 "s" [] stOneWinner).«matches» = stOneWinner.«matches» ∧
    (completeRound E0 "s" [] stOneWinner).currentRound = 2 := by
  decide

/-- C4 (amended): completing a knockout round via `completeRound` pairs the
rating-sorted winners positionally — first remaining against last
remaining — into the next round's matches; with fewer than two winners no
next-round match is created and the resulting state satisfies the
`isTournamentCompleted` predicate, but `currentRound` is still incremented
by one in every case. -/
theorem c4_knockout_pairing (E : ℚ → ℚ → ℚ) (summary : String)
    (hybridNext : List Match) (st : TournamentState) (s : TournamentSettings)
    (hset : st.tournamentSettings = some s)
    (hfmt : s.matchFormat = MatchFormat.knockout)
    (hall : ∀ m ∈ st.«matches», m.isComplete = true)
    (hround : ∀ m ∈ st.«matches», m.round ≤ st.currentRound)
    (hnodup : (st.players.map (fun p => p.id)).Nodup) :
    (completeRound E summary hybridNext st).currentRound = st.currentRound + 1 ∧
    (completeRound E summary hybridNext st).«matches» =
      st.«matches» ++ (if (koWinners st).length < 2 then []
        else pairNextRound (koWinners st) (st.currentRound + 1)) ∧
    ((koWinners st).length < 2 →
      (completeRound E summary hybridNext st).«matches» = st.«matches» ∧
      isTournamentCompletedV2 (completeRound E summary hybridNext st) = true) ∧
    ((pairNextRound (koWinners st) (st.currentRound + 1)).length =
        (koWinners st).length / 2 ∧
      ∀ i, i < (koWinners st).length / 2 →
        ∃ m p1 p2,
          (pairNextRound (koWinners st) (st.currentRound + 1)).get? i = some m ∧
          (koWinners st).get? i = some p1 ∧
          (koWinners st).get? ((koWinners st).length - 1 - i) = some p2 ∧
          m = mkKnockoutMatch p1 p2 (st.currentRound + 1) i) := by
  have hguard : (st.«matches».filter
      (fun m => m.round = st.currentRound)).any
      (fun m => m.isComplete = false) = false := by
    apply Bool.eq_false_iff.mpr
    intro hcon
    obtain ⟨m, hmem, hdec⟩ := List.any_eq_true.mp hcon
    have := hall m (List.mem_of_mem_filter hmem)
    simp [this] at hdec
  have hres : completeRound E summary hybridNext st =
      { st with
        players := (st.«matches».filter
          (fun m => m.round = st.currentRound)).foldl (statsStep E) st.players,
        roundSummaries :=
          recordSet st.roundSummaries (Nat.repr st.currentRound) summary,
        «matches» := st.«matches» ++ (if (koWinners st).length < 2 then []
          else pairNextRound (koWinners st) (st.currentRound + 1)),
        currentRound := st.currentRound + 1,
        tournamentSettings :=
          some { s with customFixtureUploaded := false } } := by
    unfold completeRound koWinners
    rw [hset]
    simp only [hguard, Bool.false_eq_true, if_false, hfmt]
  refine ⟨by rw [hres], by rw [hres], ?_, ?_⟩
  · intro hlt
    constructor
    · rw [hres]
      simp [if_pos hlt]
    · rw [hres]
      unfold isTournamentCompletedV2
      simp only [if_pos hlt, List.append_nil, Nat.succ_ne_zero, if_false]
      have hcompl : (st.«matches».filter
          (fun m => m.round ≤ st.currentRound + 1)).all
          (fun m => m.isComplete) = true := by
        apply List.all_eq_true.mpr
        intro m hm
        exact hall m (List.mem_of_mem_filter hm)
      have hnone : st.«matches».filter
          (fun m => m.round = st.currentRound + 1 ∧ m.winnerId.isSome) = [] := by
        apply List.filter_eq_nil.mpr
        intro m hm
        have := hround m hm
        simp only [decide_eq_true_eq, not_and]
        intro hr
        omega
      simp only [hcompl, hfmt, hnone, Bool.true_eq_false, if_false]
      rfl
  · obtain ⟨hl, hs⟩ :=
      pairNextRound_spec (koWinners st) (st.currentRound + 1)
        (koWinners_nodup st hnodup)
    exact ⟨hl, hs⟩

/-- Witness for C4 (amended) at the four-player state: the round advances
to 2 after both round-1 matches are complete. -/
theorem c4_knockout_pairing_witness :
    (completeRound E0 "s" [] stTwoWinners).currentRound = 2 :=
  (c4_knockout_pairing E0 "s" [] stTwoWinners koSettings
    (by decide) (by decide) (by decide) (by decide) (by decide)).1

/-- Pointwise criterion for the per-match stats relation over a mapped
player list. -/
theorem forall₂_statsRel_map (m : Match) (ps : List Player)
    (f : Player → Player)
    (hpart : ∀ q, q.id = m.player1Id ∨ q.id = m.player2Id → counterBump q (f q))
    (hother : ∀ q, q.id ≠ m.player1Id → q.id ≠ m.player2Id → f q = q) :
    List.Forall₂ (statsRel m) ps (List.map f ps) := by
  refine List.forall₂_map_right_iff.mpr (List.forall₂_same.mpr ?_)
  intro q _
  exact ⟨fun h => hpart q h, fun h => hother q h.1 h.2⟩

/-- A counter bump is unaffected by a subsequent rating assignment. -/
theorem counterBump_setRatingStep (q qq : Player) (r : ℚ)
    (h : counterBump q qq) : counterBump q { qq with rating := r } := h

/-- Incrementing `wins` is a counter bump. -/
theorem winsBump_counterBump (q : Player) :
    counterBump q { q with wins := q.wins + 1 } :=
  ⟨rfl, rfl, by simp [sumWLD]; ring, Or.inl ⟨rfl, rfl, rfl⟩⟩

/-- Incrementing `losses` is a counter bump. -/
theorem lossesBump_counterBump (q : Player) :
    counterBump q { q with losses := q.losses + 1 } :=
  ⟨rfl, rfl, by simp [sumWLD]; ring, Or.inr (Or.inl ⟨rfl, rfl, rfl⟩)⟩

/-- Incrementing `draws` is a counter bump. -/
theorem drawsBump_counterBump (q : Player) :
    counterBump q { q with draws := q.draws + 1 } :=
  ⟨rfl, rfl, by simp [sumWLD]; ring, Or.inr (Or.inr ⟨rfl, rfl, rfl⟩)⟩

/-- The common shape of both stats mutations: one counter bump applied at
each of the two (distinct) participant ids — in either order — followed by
the two rating assignments; every player's counters change as `statsRel`
demands. -/
theorem bump_pipeline_rel (m : Match) (ps : List Player)
    (x1 x2 : String) (u1 u2 : Player → Player) (r1 r2 : ℚ) (a b : String)
    (hx : (x1 = m.player1Id ∧ x2 = m.player2Id) ∨
          (x1 = m.player2Id ∧ x2 = m.player1Id))
    (hab : a = m.player1Id) (hbb : b = m.player2Id)
    (hne : m.player1Id ≠ m.player2Id)
    (hu1 : ∀ q, counterBump q (u1 q)) (hu2 : ∀ q, counterBump q (u2 q)) :
    List.Forall₂ (statsRel m) ps
      (setRating (setRating (mapPlayer (mapPlayer ps x1 u1) x2 u2) a r1)
        b r2) := by
  subst hab
  subst hbb
  simp only [setRating, mapPlayer, List.map_map]
  refine forall₂_statsRel_map m ps _ ?_ ?_
  · intro q hq
    simp only [Function.comp_apply]
    rcases hq with h | h
    · -- q is player 1
      have e1T := eq_true h
      have e2F := eq_false (fun hc : q.id = m.player2Id =>
        hne (h.symm.trans hc))
      rcases hx with ⟨hx1, hx2⟩ | ⟨hx1, hx2⟩ <;> subst hx1 <;> subst hx2 <;>
        simp only [(hu1 q).1, (hu2 q).1, e1T, e2F, if_true, if_false] <;>
        first
          | exact ⟨rfl, (hu1 q).2.1, (hu1 q).2.2.1, (hu1 q).2.2.2⟩
          | exact ⟨rfl, (hu2 q).2.1, (hu2 q).2.2.1, (hu2 q).2.2.2⟩
    · -- q is player 2
      have e1F := eq_false (fun hc : q.id = m.player1Id =>
        hne (hc.symm.trans h))
      have e2T := eq_true h
      rcases hx with ⟨hx1, hx2⟩ | ⟨hx1, hx2⟩ <;> subst hx1 <;> subst hx2 <;>
        simp only [(hu1 q).1, (hu2 q).1, e1F, e2T, if_true, if_false] <;>
        first
          | exact ⟨rfl, (hu1 q).2.1, (hu1 q).2.2.1, (hu1 q).2.2.2⟩
          | exact ⟨rfl, (hu2 q).2.1, (hu2 q).2.2.1, (hu2 q).2.2.2⟩
  · intro q hn1 hn2
    simp only [Function.comp_apply]
    rcases hx with ⟨hx1, hx2⟩ | ⟨hx1, hx2⟩ <;> subst hx1 <;> subst hx2 <;>
      simp only [(hu1 q).1, (hu2 q).1, eq_false hn1, eq_false hn2, if_false]

/-- The per-match stats step of `completeRound` bumps exactly one counter
of each of the two (distinct, registered) participants and leaves every
other player untouched. -/
theorem statsStep_rel (E : ℚ → ℚ → ℚ) (ps : List Player) (m : Match)
    (hne : m.player1Id ≠ m.player2Id)
    (q1 : Player) (hq1 : ps.find? (fun p => p.id = m.player1Id) = some q1)
    (q2 : Player) (hq2 : ps.find? (fun p => p.id = m.player2Id) = some q2) :
    List.Forall₂ (statsRel m) ps (statsStep E ps m) := by
  have e1 : q1.id = m.player1Id := by simpa using List.find?_some hq1
  have e2 : q2.id = m.player2Id := by simpa using List.find?_some hq2
  simp only [statsStep, hq1, hq2]
  by_cases hw1 : m.winnerId = some q1.id
  · simp only [eq_true hw1, if_true]
    exact bump_pipeline_rel m ps q1.id q2.id _ _ _ _ q1.id q2.id
      (Or.inl ⟨e1, e2⟩) e1 e2 hne winsBump_counterBump lossesBump_counterBump
  · by_cases hw2 : m.winnerId = some q2.id
    · simp only [eq_false hw1, eq_true hw2, if_true, if_false]
      exact bump_pipeline_rel m ps q1.id q2.id _ _ _ _ q1.id q2.id
        (Or.inl ⟨e1, e2⟩) e1 e2 hne lossesBump_counterBump winsBump_counterBump
    · simp only [eq_false hw1, eq_false hw2, if_false]
      exact bump_pipeline_rel m ps q1.id q2.id _ _ _ _ q1.id q2.id
        (Or.inl ⟨e1, e2⟩) e1 e2 hne drawsBump_counterBump drawsBump_counterBump

/-- The completion branch of `handleUpdateMatchScore`'s stats mutation
bumps exactly one counter of each participant and leaves every other
player untouched. -/
theorem humsStats_rel (E : ℚ → ℚ → ℚ) (ps : List Player) (m : Match)
    (s1 s2 : Int) (hinc : m.isComplete = false)
    (hne : m.player1Id ≠ m.player2Id)
    (q1 : Player) (hq1 : ps.find? (fun p => p.id = m.player1Id) = some q1)
    (q2 : Player) (hq2 : ps.find? (fun p => p.id = m.player2Id) = some q2) :
    List.Forall₂ (statsRel m) ps
      (humsStats E ps (some m.player1Id) (some m.player2Id) m s1 s2) := by
  have e1 : q1.id = m.player1Id := by simpa using List.find?_some hq1
  have e2 : q2.id = m.player2Id := by simpa using List.find?_some hq2
  simp only [humsStats, Option.some_bind, hq1, hq2,
    eq_true (show m.isComplete = false from hinc), if_true]
  rcases lt_trichotomy s2 s1 with hlt | heq | hlt
  · -- player 1 wins
    have hwin : newWinner m s1 s2 = some m.player1Id := by
      simp [newWinner, hlt]
    have c1 : (newWinner m s1 s2 = some q1.id) = True :=
      eq_true (by rw [hwin, e1])
    have c2 : (newWinner m s1 s2 = some q2.id) = False :=
      eq_false (by
        rw [hwin, e2]
        exact fun hc => hne (Option.some.inj hc))
    simp only [c1, c2, if_true, if_false]
    exact bump_pipeline_rel m ps q1.id q2.id _ _ _ _ q1.id q2.id
      (Or.inl ⟨e1, e2⟩) e1 e2 hne winsBump_counterBump lossesBump_counterBump
  · -- draw
    have hwin : newWinner m s1 s2 = none := by
      simp [newWinner, heq]
    have c1 : (newWinner m s1 s2 = some q1.id) = False :=
      eq_false (by rw [hwin]; exact fun hc => Option.noConfusion hc)
    have c2 : (newWinner m s1 s2 = some q2.id) = False :=
      eq_false (by rw [hwin]; exact fun hc => Option.noConfusion hc)
    simp only [c1, c2, if_false]
    exact bump_pipeline_rel m ps q1.id q2.id _ _ _ _ q1.id q2.id
      (Or.inl ⟨e1, e2⟩) e1 e2 hne drawsBump_counterBump drawsBump_counterBump
  · -- player 2 wins
    have hwin : newWinner m s1 s2 = some m.player2Id := by
      simp [newWinner, hlt, not_lt_of_gt hlt]
    have c1 : (newWinner m s1 s2 = some q1.id) = False :=
      eq_false (by
        rw [hwin, e1]
        exact fun hc => hne (Option.some.inj hc).symm)
    have c2 : (newWinner m s1 s2 = some q2.id) = True :=
      eq_true (by rw [hwin, e2])
    simp only [c1, c2, if_true, if_false]
    exact bump_pipeline_rel m ps q2.id q1.id _ _ _ _ q1.id q2.id
      (Or.inr ⟨e2, e1⟩) e1 e2 hne winsBump_counterBump lossesBump_counterBump

/-- `find?` over a list whose prefix rejects the predicate returns the
middle element. -/
theorem find?_middle {α : Type} (p : α → Bool) :
    ∀ (l1 : List α) (l2 : List α) (a : α),
      (∀ x ∈ l1, p x = false) → p a = true →
      (l1 ++ a :: l2).find? p = some a := by
  intro l1
  induction l1 with
  | nil =>
    intro l2 a _ ha
    simpa using List.find?_cons_of_pos l2 ha
  | cons x t ih =>
    intro l2 a h ha
    rw [List.cons_append,
      List.find?_cons_of_neg _ (by simp [h x (List.mem_cons_self x t)])]
    exact ih l2 a (fun y hy => h y (List.mem_cons_of_mem x hy)) ha

/-- Folding a guarded step over matches that all miss the target id is the
identity. -/
theorem foldl_guard_skip {β : Type} (f : β → Match → β) (mid : String) :
    ∀ (l : List Match) (b : β), (∀ x ∈ l, x.id ≠ mid) →
      l.foldl (fun acc x => if x.id = mid then f acc x else acc) b = b := by
  intro l
  induction l with
  | nil => intro b _; rfl
  | cons x t ih =>
    intro b h
    rw [List.foldl_cons, if_neg (h x (List.mem_cons_self x t))]
    exact ih b (fun y hy => h y (List.mem_cons_of_mem x hy))

/-- Folding a guarded step over a list containing the target id exactly
once applies the step exactly once. -/
theorem foldl_guard_single {β : Type} (f : β → Match → β) (mid : String)
    (l2 : List Match) (m : Match) (hm : m.id = mid)
    (h2 : ∀ x ∈ l2, x.id ≠ mid) :
    ∀ (l1 : List Match) (b : β), (∀ x ∈ l1, x.id ≠ mid) →
      (l1 ++ m :: l2).foldl
        (fun acc x => if x.id = mid then f acc x else acc) b = f b m := by
  intro l1
  induction l1 with
  | nil =>
    intro b _
    rw [List.nil_append, List.foldl_cons, if_pos hm]
    exact foldl_guard_skip f mid l2 (f b m) h2
  | cons x t ih =>
    intro b h
    rw [List.cons_append, List.foldl_cons,
      if_neg (h x (List.mem_cons_self x t))]
    exact ih b (fun y hy => h y (List.mem_cons_of_mem x hy))

/-- When the targeted id occurs exactly once in the match list, the player
list produced by `handleUpdateMatchScore` is a single application of its
stats mutation. -/
theorem handleUpdateMatchScore_players (E : ℚ → ℚ → ℚ) (mid : String)
    (s1 s2 : Int) (st : TournamentState) (l1 l2 : List Match) (m : Match)
    (hsplit : st.«matches» = l1 ++ m :: l2)
    (h1 : ∀ x ∈ l1, x.id ≠ mid) (h2 : ∀ x ∈ l2, x.id ≠ mid)
    (hm : m.id = mid) :
    (handleUpdateMatchScore E mid s1 s2 st).players =
      humsStats E st.players (some m.player1Id) (some m.player2Id) m s1 s2 := by
  simp only [handleUpdateMatchScore]
  rw [hsplit,
    find?_middle _ l1 l2 m (fun x hx => by simp [h1 x hx]) (by simp [hm])]
  simp only [Option.map_some']
  exact foldl_guard_single _ mid l2 m hm h2 l1 st.players h1

/-- C5: when the targeted (unique, incomplete) match is completed,
`handleUpdateMatchScore` increments exactly one of wins/losses/draws — so
`wins + losses + draws` grows by exactly one — for each of the two
(distinct, registered) participants and leaves every other player
unchanged; the per-match stats step that `completeRound` applies to every
match of the completed round does the same. -/
theorem c5_completion_bumps_counters (E : ℚ → ℚ → ℚ) (mid : String)
    (s1 s2 : Int) (st : TournamentState) (l1 l2 : List Match) (m : Match)
    (q1 q2 : Player)
    (hsplit : st.«matches» = l1 ++ m :: l2)
    (h1 : ∀ x ∈ l1, x.id ≠ mid) (h2 : ∀ x ∈ l2, x.id ≠ mid)
    (hm : m.id = mid) (hinc : m.isComplete = false)
    (hne : m.player1Id ≠ m.player2Id)
    (hq1 : st.players.find? (fun p => p.id = m.player1Id) = some q1)
    (hq2 : st.players.find? (fun p => p.id = m.player2Id) = some q2)
    (ps2 : List Player) (m2 : Match) (r1 r2 : Player)
    (hne2 : m2.player1Id ≠ m2.player2Id)
    (hr1 : ps2.find? (fun p => p.id = m2.player1Id) = some r1)
    (hr2 : ps2.find? (fun p => p.id = m2.player2Id) = some r2) :
    List.Forall₂ (statsRel m) st.players
      (handleUpdateMatchScore E mid s1 s2 st).players ∧
    List.Forall₂ (statsRel m2) ps2 (statsStep E ps2 m2) := by
  constructor
  · rw [handleUpdateMatchScore_players E mid s1 s2 st l1 l2 m hsplit h1 h2 hm]
    exact humsStats_rel E st.players m s1 s2 hinc hne q1 hq1 q2 hq2
  · exact statsStep_rel E ps2 m2 hne2 r1 hr1 r2 hr2

/-- Witness for C5 at the concrete unscored match between A and B. -/
theorem c5_completion_bumps_counters_witness :
    List.Forall₂ (statsRel mInc) stIncomplete.players
      (handleUpdateMatchScore E0 "m1" 11 5 stIncomplete).players :=
  (c5_completion_bumps_counters E0 "m1" 11 5 stIncomplete [] [] mInc pA pB
    rfl (by simp) (by simp) rfl rfl (by decide) (by decide) (by decide)
    [pA, pB] mDoneAB pA pB (by decide) (by decide) (by decide)).1

/-- C6 counterexample: the uuid variant `deletePlayer` does not touch the
published-fixture cache, so a published row naming the deleted player X
survives the deletion. -/
theorem c6_deletePlayer_keeps_published_row :
    pX ∈ stPublished.players ∧ pX.id = "px" ∧ rowXY.player1 = pX.name ∧
    (deletePlayer "px" stPublished).publishedFixtures =
      [("30+", [rowXY])] := by
  decide

/-- A fixture-cache row that survives `handleDeletePlayer`'s name-resolving
filter cannot carry the deleted player's (unique) name. -/
theorem keepRowV1_not_named (players : List Player) (pid : String) (p : Player)
    (hp : players.find? (fun q => q.id = pid) = some p)
    (hname : ∀ q ∈ players, q.name = p.name → q.id = pid)
    (nm : String)
    (hkeep : ((players.find? (fun q => q.name = nm)).map (fun q => q.id))
      ≠ some pid) : nm ≠ p.name := by
  intro heq
  subst heq
  have hpmem : p ∈ players := List.mem_of_find?_eq_some hp
  have hsome : (players.find? (fun q => q.name = p.name)).isSome = true :=
    List.find?_isSome.mpr ⟨p, hpmem, by simp⟩
  obtain ⟨q, hq⟩ := Option.isSome_iff_exists.mp hsome
  have hqname : q.name = p.name := by simpa using List.find?_some hq
  have hqid : q.id = pid := hname q (List.mem_of_find?_eq_some hq) hqname
  apply hkeep
  rw [hq, Option.map_some', hqid]

/-- C6 (amended): both delete operations remove the player and every match
referencing it and keep all other players and all non-referencing matches;
`handleDeletePlayer` additionally strips the deleted player's (unique)
name from both the generated and the published fixture caches, while
`deletePlayer` strips it only from the generated cache and leaves the
published cache entirely untouched. -/
theorem c6_delete_player (pid : String) (st : TournamentState) (p : Player)
    (hp : st.players.find? (fun q => q.id = pid) = some p)
    (hname : ∀ q ∈ st.players, q.name = p.name → q.id = pid) :
    (∀ q ∈ (handleDeletePlayer pid st).players, q.id ≠ pid) ∧
    (∀ q ∈ (deletePlayer pid st).players, q.id ≠ pid) ∧
    (∀ m ∈ (handleDeletePlayer pid st).«matches»,
        m.player1Id ≠ pid ∧ m.player2Id ≠ pid) ∧
    (∀ m ∈ (deletePlayer pid st).«matches»,
        m.player1Id ≠ pid ∧ m.player2Id ≠ pid) ∧
    (∀ kv ∈ (handleDeletePlayer pid st).generatedFixtures, ∀ row ∈ kv.2,
        row.player1 ≠ p.name ∧ row.player2 ≠ p.name) ∧
    (∀ kv ∈ (handleDeletePlayer pid st).publishedFixtures, ∀ row ∈ kv.2,
        row.player1 ≠ p.name ∧ row.player2 ≠ p.name) ∧
    (∀ kv ∈ (deletePlayer pid st).generatedFixtures, ∀ row ∈ kv.2,
        row.player1 ≠ p.name ∧ row.player2 ≠ p.name) ∧
    ((deletePlayer pid st).publishedFixtures = st.publishedFixtures) ∧
    (∀ q ∈ st.players, q.id ≠ pid →
        q ∈ (handleDeletePlayer pid st).players ∧
        q ∈ (deletePlayer pid st).players) ∧
    (∀ m ∈ st.«matches», m.player1Id ≠ pid → m.player2Id ≠ pid →
        m ∈ (handleDeletePlayer pid st).«matches» ∧
        m ∈ (deletePlayer pid st).«matches») := by
  refine ⟨?_, ?_, ?_, ?_, ?_, ?_, ?_, rfl, ?_, ?_⟩
  · intro q hq
    have := (List.mem_filter.mp hq).2
    simpa using this
  · intro q hq
    have := (List.mem_filter.mp hq).2
    simpa using this
  · intro m hm
    have := (List.mem_filter.mp hm).2
    simpa using this
  · intro m hm
    have := (List.mem_filter.mp hm).2
    simpa using this
  · intro kv hkv row hrow
    simp only [handleDeletePlayer, List.mem_map] at hkv
    obtain ⟨kv0, _, rfl⟩ := hkv
    have hkeep := (List.mem_filter.mp hrow).2
    rw [keepRowV1] at hkeep
    simp only [decide_eq_true_eq] at hkeep
    exact ⟨(keepRowV1_not_named st.players pid p hp hname row.player1
        hkeep.1).symm ∘ Eq.symm,
      (keepRowV1_not_named st.players pid p hp hname row.player2
        hkeep.2).symm ∘ Eq.symm⟩
  · intro kv hkv row hrow
    simp only [handleDeletePlayer, List.mem_map] at hkv
    obtain ⟨kv0, _, rfl⟩ := hkv
    have hkeep := (List.mem_filter.mp hrow).2
    rw [keepRowV1] at hkeep
    simp only [decide_eq_true_eq] at hkeep
    exact ⟨(keepRowV1_not_named st.players pid p hp hname row.player1
        hkeep.1).symm ∘ Eq.symm,
      (keepRowV1_not_named st.players pid p hp hname row.player2
        hkeep.2).symm ∘ Eq.symm⟩
  · intro kv hkv row hrow
    simp only [deletePlayer, List.mem_filterMap] at hkv
    obtain ⟨kv0, _, heq⟩ := hkv
    by_cases hlen : 0 < (kv0.2.filter (fun mm =>
        ((st.players.find? (fun q => q.id = pid)).map (fun q => q.name))
            ≠ some mm.player1 ∧
        ((st.players.find? (fun q => q.id = pid)).map (fun q => q.name))
            ≠ some mm.player2)).length
    · rw [if_pos hlen, Option.some_inj] at heq
      subst heq
      have hkeep := (List.mem_filter.mp hrow).2
      simp only [hp, Option.map_some', decide_eq_true_eq] at hkeep
      exact ⟨fun hc => hkeep.1 (by rw [hc]),
        fun hc => hkeep.2 (by rw [hc])⟩
    · rw [if_neg hlen] at heq
      exact absurd heq (by simp)
  · intro q hq hqid
    constructor
    · exact List.mem_filter.mpr ⟨hq, by simpa using hqid⟩
    · exact List.mem_filter.mpr ⟨hq, by simpa using hqid⟩
  · intro m hm hm1 hm2
    constructor
    · exact List.mem_filter.mpr ⟨hm, by simp [hm1, hm2]⟩
    · exact List.mem_filter.mpr ⟨hm, by simp [hm1, hm2]⟩

/-- Witness for C6 (amended) at the concrete published-fixture state. -/
theorem c6_delete_player_witness :
    (deletePlayer "px" stPublished).publishedFixtures =
      stPublished.publishedFixtures :=
  (c6_delete_player "px" stPublished pX (by decide) (by decide)).2.2.2.2.2.2.2.1

/-- C8 counterexample: for the three 30+ players A, B, C the client code
accepts the parsed single-row fixture [(A,B)] unchanged even though it
covers neither (A,C) nor (B,C) — no pair-coverage validation exists. -/
theorem c8_accepts_incomplete_fixture :
    generateRoundRobinFixture [pA, pB, pC] "30+" (Except.ok [rowAB]) =
      Except.ok [rowAB] ∧
    coversPairsExactlyOnce ["A", "B", "C"] [rowAB] = false ∧
    pairCount [rowAB] "A" "C" = 0 :=
  ⟨rfl, by decide, by decide⟩

/-- C8 (amended): round-robin fixture generation rejects only an
insufficient category (fewer than two players, a thrown error) or a failed
API call / JSON parse; any successfully parsed fixture is returned
unchanged, regardless of pair coverage — the missing-player check only
produces console warnings. -/
theorem c8_fixture_validation (players : List Player) (category : String)
    (fixture : List CsvMatch) (e : Unit) :
    (2 ≤ (players.filter (fun p => p.category = category)).length →
      generateRoundRobinFixture players category (Except.ok fixture) =
        Except.ok fixture) ∧
    ((players.filter (fun p => p.category = category)).length < 2 →
      ∀ api, ∃ msg, generateRoundRobinFixture players category api =
        Except.error msg) ∧
    (2 ≤ (players.filter (fun p => p.category = category)).length →
      ∃ msg, generateRoundRobinFixture players category (Except.error e) =
        Except.error msg) := by
  simp only [generateRoundRobinFixture]
  refine ⟨fun h2 => ?_, fun hlt api => ?_, fun h2 => ?_⟩
  · rw [if_neg (by omega)]
  · rw [if_pos hlt]
    exact ⟨_, rfl⟩
  · rw [if_neg (by omega)]
    exact ⟨_, rfl⟩

/-- Witness for C8 (amended): with three category players the empty parsed
fixture is accepted as-is. -/
theorem c8_fixture_validation_witness :
    generateRoundRobinFixture [pA, pB, pC] "30+" (Except.ok []) =
      Except.ok [] :=
  (c8_fixture_validation [pA, pB, pC] "30+" [] ()).1 (by decide)

/-- C10: every player created by any registration path (single add in
either variant — the path QR-based registration also uses — or bulk CSV
import) starts with `wins = losses = draws = 0`; the single-add paths give
rating 1500, and a bulk-imported player's rating is the row's parsed
rating when one is given and 1500 otherwise. -/
theorem c10_registration_defaults (id name mobileNumber category : String)
    (st : TournamentState) (ids : Nat → String) (rows : List CsvPlayerRow) :
    (∀ q ∈ (handleAddPlayer id name mobileNumber category st).players,
        q ∈ st.players ∨
        (q.rating = 1500 ∧ q.wins = 0 ∧ q.losses = 0 ∧ q.draws = 0)) ∧
    (∀ q ∈ (addPlayer id name mobileNumber category st).players,
        q ∈ st.players ∨
        (q.rating = 1500 ∧ q.wins = 0 ∧ q.losses = 0 ∧ q.draws = 0)) ∧
    (∀ q ∈ (bulkUploadPlayers ids rows st).players,
        q ∈ st.players ∨
        (q.wins = 0 ∧ q.losses = 0 ∧ q.draws = 0 ∧
          ∃ row ∈ rows, row.name = some q.name ∧
            q.rating = row.rating.getD 1500)) := by
  refine ⟨?_, ?_, ?_⟩
  · intro q hq
    rcases List.mem_append.mp hq with h | h
    · exact Or.inl h
    · rw [List.mem_singleton] at h
      subst h
      exact Or.inr ⟨rfl, rfl, rfl, rfl⟩
  · intro q hq
    rcases List.mem_append.mp hq with h | h
    · exact Or.inl h
    · rw [List.mem_singleton] at h
      subst h
      exact Or.inr ⟨rfl, rfl, rfl, rfl⟩
  · intro q hq
    rcases List.mem_append.mp hq with h | h
    · exact Or.inl h
    · right
      have hnew := List.mem_of_mem_filter h
      obtain ⟨ni, hni, hsome⟩ := List.mem_filterMap.mp hnew
      have hrow : ni.2 ∈ rows := by
        obtain ⟨i, x⟩ := ni
        obtain ⟨hlt, hx⟩ := List.mem_enum hni
        rw [hx]
        exact List.getElem_mem hlt
      rw [csvRowPlayer] at hsome
      rcases hn : ni.2.name with _ | n
      · rw [hn] at hsome
        exact absurd hsome (by simp)
      · rcases hmob : ni.2.mobilenumber with _ | mob
        · rw [hn, hmob] at hsome
          exact absurd hsome (by simp)
        · rw [hn, hmob, Option.some_inj] at hsome
          subst hsome
          exact ⟨rfl, rfl, rfl, ni.2, hrow, hn, rfl⟩

/-- Witness for C10: the player added to the empty registry. -/
theorem c10_registration_defaults_witness :
    ({ id := "p9", name := "N", mobileNumber := "7", rating := 1500,
       wins := 0, losses := 0, draws := 0, category := "30+" } : Player)
        ∈ initialState.players ∨
    (({ id := "p9", name := "N", mobileNumber := "7", rating := 1500,
        wins := 0, losses := 0, draws := 0, category := "30+" } : Player).rating
          = 1500 ∧
      ({ id := "p9", name := "N", mobileNumber := "7", rating := 1500,
         wins := 0, losses := 0, draws := 0,
         category := "30+" } : Player).wins = 0 ∧
      ({ id := "p9", name := "N", mobileNumber := "7", rating := 1500,
         wins := 0, losses := 0, draws := 0,
         category := "30+" } : Player).losses = 0 ∧
      ({ id := "p9", name := "N", mobileNumber := "7", rating := 1500,
         wins := 0, losses := 0, draws := 0,
         category := "30+" } : Player).draws = 0) :=
  (c10_registration_defaults "p9" "N" "7" "30+" initialState
      (fun _ => "u") []).1
    { id := "p9", name := "N", mobileNumber := "7", rating := 1500,
      wins := 0, losses := 0, draws := 0, category := "30+" }
    (by decide)

/-- Integers round-trip through JSON numbers. -/
theorem asInt_intCast (i : Int) : asInt (Json.num (i : ℚ)) = some i := by
  simp [asInt, asNum, Rat.den_intCast, Rat.num_intCast]

/-- Naturals round-trip through JSON numbers. -/
theorem asNat_natCast (n : Nat) : asNat (Json.num (n : ℚ)) = some n := by
  have h : ((n : ℚ)) = ((n : ℤ) : ℚ) := by push_cast; rfl
  rw [asNat, h, asInt_intCast]
  simp

/-- Optional values round-trip when the element encoder does and never
produces `null`. -/
theorem decOpt_roundtrip {α : Type} (f : α → Json) (g : Json → Option α)
    (hg : ∀ a, g (f a) = some a) (hnull : ∀ a, f a ≠ Json.null)
    (o : Option α) : decOpt g (encOpt f o) = some o := by
  cases o with
  | none => rfl
  | some a =>
    cases hfa : f a with
    | null => exact absurd hfa (hnull a)
    | bool b =>
      have h2 := hg a
      rw [hfa] at h2
      simp [decOpt, encOpt, hfa, h2]
    | num q =>
      have h2 := hg a
      rw [hfa] at h2
      simp [decOpt, encOpt, hfa, h2]
    | str s =>
      have h2 := hg a
      rw [hfa] at h2
      simp [decOpt, encOpt, hfa, h2]
    | arr js =>
      have h2 := hg a
      rw [hfa] at h2
      simp [decOpt, encOpt, hfa, h2]
    | obj kvs =>
      have h2 := hg a
      rw [hfa] at h2
      simp [decOpt, encOpt, hfa, h2]

/-- Optional strings round-trip. -/
theorem decOptStr_enc (o : Option String) :
    decOpt asStr (encOpt Json.str o) = some o :=
  decOpt_roundtrip Json.str asStr (fun _ => rfl)
    (fun _ h => Json.noConfusion h) o

/-- Optional integers round-trip. -/
theorem decOptInt_enc (o : Option Int) :
    decOpt asInt (encOpt (fun i : Int => Json.num (i : ℚ)) o) = some o :=
  decOpt_roundtrip (fun i : Int => Json.num (i : ℚ)) asInt asInt_intCast
    (fun _ h => Json.noConfusion h) o

/-- Array bodies round-trip elementwise. -/
theorem decListAux_roundtrip {α : Type} (f : α → Json) (g : Json → Option α)
    (hg : ∀ a, g (f a) = some a) :
    ∀ l : List α, decListAux g (l.map f) = some l := by
  intro l
  induction l with
  | nil => rfl
  | cons a t ih => simp [decListAux, hg a, ih]

/-- Object records round-trip valuewise. -/
theorem decRecordAux_roundtrip {α : Type} (f : α → Json) (g : Json → Option α)
    (hg : ∀ a, g (f a) = some a) :
    ∀ kvs : List (String × α),
      decRecordAux g (kvs.map (fun kv => (kv.1, f kv.2))) = some kvs := by
  intro kvs
  induction kvs with
  | nil => rfl
  | cons kv t ih => simp [decRecordAux, hg kv.2, ih]

/-- Players round-trip through their JSON encoding. -/
theorem decPlayer_enc (p : Player) : decPlayer (encPlayer p) = some p := by
  cases p with
  | mk id name mob rating w l d cat =>
    simp [decPlayer, encPlayer, getField, lookupKey, asStr, asNum,
      asInt_intCast]

/-- Matches round-trip through their JSON encoding. -/
theorem decMatch_enc (m : Match) : decMatch (encMatch m) = some m := by
  cases m with
  | mk id p1 p2 s1 s2 w r c cat g =>
    simp [decMatch, encMatch, getField, lookupKey, asStr, asBool,
      asNat_natCast, decOptStr_enc, decOptInt_enc]

/-- Fixture rows round-trip through their JSON encoding. -/
theorem decCsvMatch_enc (m : CsvMatch) :
    decCsvMatch (encCsvMatch m) = some m := by
  cases m with
  | mk p1 p2 r cat g =>
    simp [decCsvMatch, encCsvMatch, getField, lookupKey, asStr,
      asNat_natCast, decOptStr_enc]

/-- The match-format enum round-trips. -/
theorem decMatchFormat_enc (f : MatchFormat) :
    decMatchFormat (encMatchFormat f) = some f := by
  cases f <;> rfl

/-- The tournament settings round-trip. -/
theorem decSettings_enc (s : TournamentSettings) :
    decSettings (encSettings s) = some s := by
  cases s with
  | mk n r ids f c =>
    simp [decSettings, encSettings, getField, lookupKey, asStr, asBool,
      asNat_natCast, decMatchFormat_enc, decList,
      decListAux_roundtrip Json.str asStr (fun _ => rfl)]

/-- Player arrays round-trip. -/
theorem decPlayers_enc (l : List Player) :
    decList decPlayer (Json.arr (l.map encPlayer)) = some l := by
  simp [decList, decListAux_roundtrip encPlayer decPlayer decPlayer_enc]

/-- Match arrays round-trip. -/
theorem decMatches_enc (l : List Match) :
    decList decMatch (Json.arr (l.map encMatch)) = some l := by
  simp [decList, decListAux_roundtrip encMatch decMatch decMatch_enc]

/-- Fixture-row arrays round-trip. -/
theorem decCsvRows_enc (l : List CsvMatch) :
    decList decCsvMatch (Json.arr (l.map encCsvMatch)) = some l := by
  simp [decList, decListAux_roundtrip encCsvMatch decCsvMatch decCsvMatch_enc]

/-- Player-group arrays round-trip. -/
theorem decGroups_enc (l : List (List Player)) :
    decList (decList decPlayer)
      (Json.arr (l.map (fun g => Json.arr (g.map encPlayer)))) = some l := by
  simp [decList,
    decListAux_roundtrip (fun g => Json.arr (g.map encPlayer))
      (decList decPlayer) decPlayers_enc]

/-- The round-summary record round-trips. -/
theorem decSummaries_enc (kvs : List (String × String)) :
    decRecord asStr (encRecord Json.str kvs) = some kvs := by
  simp [decRecord, encRecord, decRecordAux_roundtrip Json.str asStr
    (fun _ => rfl)]

/-- The fixture caches round-trip. -/
theorem decFixturesRecord_enc (kvs : List (String × List CsvMatch)) :
    decRecord (decList decCsvMatch)
      (encRecord (fun rows => Json.arr (rows.map encCsvMatch)) kvs) =
      some kvs := by
  simp [decRecord, encRecord,
    decRecordAux_roundtrip (fun rows => Json.arr (rows.map encCsvMatch))
      (decList decCsvMatch) decCsvRows_enc]

/-- The hybrid-group cache round-trips. -/
theorem decGroupsRecord_enc (kvs : List (String × List (List Player))) :
    decRecord (decList (decList decPlayer))
      (encRecord (fun groups =>
          Json.arr (groups.map (fun g => Json.arr (g.map encPlayer)))) kvs) =
      some kvs := by
  simp [decRecord, encRecord,
    decRecordAux_roundtrip (fun groups =>
        Json.arr (groups.map (fun g => Json.arr (g.map encPlayer))))
      (decList (decList decPlayer)) decGroups_enc]

/-- The optional settings round-trip. -/
theorem decOptSettings_enc (o : Option TournamentSettings) :
    decOpt decSettings (encOpt encSettings o) = some o :=
  decOpt_roundtrip encSettings decSettings decSettings_enc
    (fun _ h => Json.noConfusion h) o

/-- C9: serializing the whole tournament state to the single storage blob
and rehydrating it — `{ ...initialState, ...parsed }` in the first
application root, parsed-state spread with default-filled cache fields in
the second — reproduces the identical players, matches and current round
(indeed the whole modelled state). -/
theorem c9_persistence_roundtrip (st : TournamentState) :
    rehydrateV1 (encodeState st) = st ∧
    rehydrateV2 (encodeState st) = some st := by
  cases st with
  | mk ps ms r s sums gf pf gh =>
    constructor
    · simp [rehydrateV1, decFieldD, encodeState, getField, lookupKey,
        decPlayers_enc, decMatches_enc, asNat_natCast, decOptSettings_enc,
        decSummaries_enc, decFixturesRecord_enc, decGroupsRecord_enc]
    · simp [rehydrateV2, decFieldD, encodeState, getField, lookupKey,
        decPlayers_enc, decMatches_enc, asNat_natCast, decOptSettings_enc,
        decSummaries_enc, decFixturesRecord_enc, decGroupsRecord_enc]

end Tennis
